import Mathlib

/-!
Shallow embedding of the ledger subsystem of the repository
(`src/homeworks/hw12/src/bank.rs` and the TCP server of
`src/homeworks/hw1[345]/server/src/main.rs`).

Modelling conventions:
* `Money = f64` in the source is embedded as `Int`.  The spec explicitly
  allows substituting a fixed-point numeric type as long as comparison
  semantics are preserved; the ledger only ever uses `+`, `-`, `0`,
  `amount <= 0` and `balance < amount`, which have the same semantics in
  any linearly ordered group of amounts.
* `TransactionId` is a ULID string in the source, produced by
  `Bank::get_next_id` from a monotonic `ulid::Generator`: ids are unique
  and strictly increasing in generation order, and `history` is a
  `BTreeMap` keyed by id.  We embed the generator as a strictly increasing
  `Nat` counter stored in the bank (`nextId`), which realises exactly the
  interface the spec assigns to the id collaborator (globally unique,
  ordering of generation defines the canonical log order).
* `HashMap` fields are embedded as association lists (`lookupA`,
  `updateA`); the source never iterates these maps, so only
  lookup/insert/contains semantics matter.  The `BTreeMap` history is an
  association list kept sorted by key via `insertSorted`.
* Rust `Result` is `Except`; methods taking `&mut self` return the new
  bank next to the result, so state changes on error paths (the consumed
  generator id in `withdraw`) are captured.
-/

namespace BankSpec

abbrev Money := Int

abbrev TransactionId := Nat

instance {ε α : Type} [DecidableEq ε] [DecidableEq α] : DecidableEq (Except ε α) := fun x y =>
  match x, y with
  | .error a, .error b => decidable_of_iff (a = b) (by simp)
  | .error _, .ok _ => isFalse (by simp)
  | .ok _, .error _ => isFalse (by simp)
  | .ok a, .ok b => decidable_of_iff (a = b) (by simp)

/-- `OperationType` from bank.rs. -/
inductive OperationType where
  | createAccount
  | deposit
  | withdraw
  | transfer (target_account : String)
deriving DecidableEq

/-- `Operation` from bank.rs: one immutable log entry. -/
structure Operation where
  id : TransactionId
  source_account : String
  amount : Money
  operation_type : OperationType
deriving DecidableEq

/-- `BankError` from bank.rs, flattened with the payload fields of the
five wrapped error structs. -/
inductive BankError where
  | accountDuplication (account : String)
  | amountNegative (account : String) (amount : Money)
  | accountNotFound (account : String)
  | insufficientFunds (account : String) (amount : Money) (balance : Money)
  | someAccountTransfer (account : String)
deriving DecidableEq

/-- Association-list lookup: the first binding of the key wins, matching
`HashMap::get`. -/
def lookupA {κ β : Type} [DecidableEq κ] : List (κ × β) → κ → Option β
  | [], _ => none
  | (k, v) :: rest, a => if k = a then some v else lookupA rest a

/-- `HashMap::contains_key`. -/
def containsA {κ β : Type} [DecidableEq κ] (l : List (κ × β)) (a : κ) : Bool :=
  (lookupA l a).isSome

/-- `HashMap::insert`: replace the binding if the key is present,
otherwise add it. -/
def updateA {κ β : Type} [DecidableEq κ] : List (κ × β) → κ → β → List (κ × β)
  | [], a, v => [(a, v)]
  | (k, w) :: rest, a, v =>
    if k = a then (a, v) :: rest else (k, w) :: updateA rest a v

/-- `BTreeMap::insert` on a list sorted by key. -/
def insertSorted : List (TransactionId × Operation) → TransactionId → Operation →
    List (TransactionId × Operation)
  | [], k, v => [(k, v)]
  | (k', v') :: rest, k, v =>
    if k < k' then (k, v) :: (k', v') :: rest
    else if k = k' then (k, v) :: rest
    else (k', v') :: insertSorted rest k v

/-- The `Bank` struct: accounts (code to balance), per-account id index,
the `BTreeMap` operation log, and the id generator state. -/
structure Bank where
  accounts : List (String × Money)
  accounts_history : List (String × List TransactionId)
  history : List (TransactionId × Operation)
  nextId : Nat
deriving DecidableEq

/-- `Bank::new` / `Bank::default`. -/
def Bank.new : Bank := ⟨[], [], [], 0⟩

/-- `Bank::get_next_id`: the monotonic ULID generator as a counter. -/
def Bank.get_next_id (b : Bank) : TransactionId × Bank :=
  (b.nextId, { b with nextId := b.nextId + 1 })

/-- `accounts_history.entry(account).or_default().push(id)`. -/
def pushHistoryId (ah : List (String × List TransactionId)) (account : String)
    (id : TransactionId) : List (String × List TransactionId) :=
  updateA ah account (((lookupA ah account).getD []) ++ [id])

/-- The target-existence check inside `Bank::push_transaction`:
`some target` when the operation is a transfer whose target account is
missing. -/
def transferTargetMissing (b : Bank) (operation : Operation) : Option String :=
  match operation.operation_type with
  | .transfer target_account =>
    if containsA b.accounts target_account then none else some target_account
  | _ => none

/-- `Bank::push_transaction`.  For the transfer target the source pushes
through `get_mut(target).unwrap()`; every bank reachable through the
public interface has an `accounts_history` entry for every account, so
the `or_default`-style embedding (`pushHistoryId`) agrees with it on all
states that can occur. -/
def Bank.push_transaction (b : Bank) (operation : Operation) : Except BankError Bank :=
  if ¬ containsA b.accounts operation.source_account then
    .error (.accountNotFound operation.source_account)
  else
    match transferTargetMissing b operation with
    | some target_account => .error (.accountNotFound target_account)
    | none =>
      let ah := pushHistoryId b.accounts_history operation.source_account operation.id
      let ah :=
        match operation.operation_type with
        | .transfer target_account => pushHistoryId ah target_account operation.id
        | _ => ah
      .ok { b with accounts_history := ah,
                   history := insertSorted b.history operation.id operation }

/-- `Bank::create_account`. -/
def Bank.create_account (b : Bank) (account : String) :
    Except BankError TransactionId × Bank :=
  if containsA b.accounts account then
    (.error (.accountDuplication account), b)
  else
    let (next_id, b) := b.get_next_id
    let b : Bank := { b with accounts := updateA b.accounts account 0 }
    let operation : Operation := ⟨next_id, account, 0, .createAccount⟩
    match b.push_transaction operation with
    | .error e => (.error e, b)
    | .ok b => (.ok next_id, b)

/-- `Bank::deposit`. -/
def Bank.deposit (b : Bank) (account : String) (amount : Money) :
    Except BankError TransactionId × Bank :=
  if ¬ containsA b.accounts account then
    (.error (.accountNotFound account), b)
  else
    match lookupA b.accounts account with
    | some balance =>
      if amount ≤ 0 then
        (.error (.amountNegative account amount), b)
      else
        let b : Bank := { b with accounts := updateA b.accounts account (balance + amount) }
        let (transaction_id, b) := b.get_next_id
        let operation : Operation := ⟨transaction_id, account, amount, .deposit⟩
        match b.push_transaction operation with
        | .error e => (.error e, b)
        | .ok b => (.ok transaction_id, b)
    | none => (.error (.accountNotFound account), b)

/-- `Bank::withdraw`.  Note that the source calls `get_next_id` before
the amount and balance checks, so those two error paths still consume a
generator id. -/
def Bank.withdraw (b : Bank) (account : String) (amount : Money) :
    Except BankError TransactionId × Bank :=
  if ¬ containsA b.accounts account then
    (.error (.accountNotFound account), b)
  else
    let (transaction_id, b) := b.get_next_id
    let operation : Operation := ⟨transaction_id, account, amount, .withdraw⟩
    match lookupA b.accounts account with
    | some balance =>
      if amount ≤ 0 then
        (.error (.amountNegative account amount), b)
      else if balance < amount then
        (.error (.insufficientFunds account amount balance), b)
      else
        let b : Bank := { b with accounts := updateA b.accounts account (balance - amount) }
        match b.push_transaction operation with
        | .error e => (.error e, b)
        | .ok b => (.ok transaction_id, b)
    | none => (.error (.accountNotFound account), b)

/-- `Bank::transfer`.  The two balance cells are distinct (`sender ≠
receiver` is already established), so the source's two in-place `RefCell`
updates amount to the two `updateA`s below. -/
def Bank.transfer (b : Bank) (sender_account receiver_account : String) (amount : Money) :
    Except BankError TransactionId × Bank :=
  if ¬ containsA b.accounts sender_account then
    (.error (.accountNotFound sender_account), b)
  else if ¬ containsA b.accounts receiver_account then
    (.error (.accountNotFound receiver_account), b)
  else if sender_account = receiver_account then
    (.error (.someAccountTransfer sender_account), b)
  else
    match lookupA b.accounts sender_account with
    | some sender_balance =>
      match lookupA b.accounts receiver_account with
      | some receiver_balance =>
        if amount ≤ 0 then
          (.error (.amountNegative sender_account amount), b)
        else if sender_balance < amount then
          (.error (.insufficientFunds sender_account amount sender_balance), b)
        else
          let accounts' :=
            updateA (updateA b.accounts sender_account (sender_balance - amount))
              receiver_account (receiver_balance + amount)
          let b : Bank := { b with accounts := accounts' }
          let (transaction_id, b) := b.get_next_id
          let operation : Operation :=
            ⟨transaction_id, sender_account, amount, .transfer receiver_account⟩
          match b.push_transaction operation with
          | .error e => (.error e, b)
          | .ok b => (.ok transaction_id, b)
      | none => (.error (.accountNotFound receiver_account), b)
    | none => (.error (.accountNotFound sender_account), b)

/-- `Bank::get_balance`; the inner `unwrap` is sound because the
existence check already passed, embedded via `getD`. -/
def Bank.get_balance (b : Bank) (account : String) : Except BankError Money :=
  if ¬ containsA b.accounts account then .error (.accountNotFound account)
  else .ok ((lookupA b.accounts account).getD 0)

/-- `Bank::get_history`: the `BTreeMap` values in key order (the source
always returns `Ok`). -/
def Bank.get_history (b : Bank) : List Operation :=
  b.history.map (fun p => p.2)

/-- Placeholder used to embed the `unwrap`s inside
`Bank::get_account_history`; never produced on banks reachable through
the public interface. -/
def defaultOperation : Operation := ⟨0, "", 0, .createAccount⟩

/-- The body of `Bank::get_account_history` after its existence check:
map the stored ids through the global log. -/
def accountOps (b : Bank) (account : String) : List Operation :=
  ((lookupA b.accounts_history account).getD []).map
    (fun t => (lookupA b.history t).getD defaultOperation)

/-- `Bank::get_account_history`. -/
def Bank.get_account_history (b : Bank) (account : String) :
    Except BankError (List Operation) :=
  if ¬ containsA b.accounts account then .error (.accountNotFound account)
  else .ok (accountOps b account)

/-- `Bank::get_operation_by_id`. -/
def Bank.get_operation_by_id (b : Bank) (id : TransactionId) : Option Operation :=
  lookupA b.history id

/-- One iteration of the loop in `Bank::replay_history`; `none` embeds
the `unwrap` panic on a failed re-application. -/
def replayStep (target_bank : Bank) (operation : Operation) : Option Bank :=
  match operation.operation_type with
  | .createAccount =>
    match target_bank.create_account operation.source_account with
    | (.ok _, b) => some b
    | (.error _, _) => none
  | .deposit =>
    match target_bank.deposit operation.source_account operation.amount with
    | (.ok _, b) => some b
    | (.error _, _) => none
  | .withdraw =>
    match target_bank.withdraw operation.source_account operation.amount with
    | (.ok _, b) => some b
    | (.error _, _) => none
  | .transfer target_account =>
    match target_bank.transfer operation.source_account target_account operation.amount with
    | (.ok _, b) => some b
    | (.error _, _) => none

/-- The loop of `Bank::replay_history`. -/
def replayLoop : List Operation → Bank → Option Bank
  | [], target_bank => some target_bank
  | operation :: rest, target_bank =>
    match replayStep target_bank operation with
    | some b => replayLoop rest b
    | none => none

/-- `Bank::replay_history`: re-dispatch the log into a fresh bank. -/
def Bank.replay_history (operations_log : List Operation) : Option Bank :=
  replayLoop operations_log Bank.new

/-- A mutating call of the public ledger interface. -/
inductive Cmd where
  | create (account : String)
  | deposit (account : String) (amount : Money)
  | withdraw (account : String) (amount : Money)
  | transfer (sender receiver : String) (amount : Money)
deriving DecidableEq

def runCmd (b : Bank) (c : Cmd) : Except BankError TransactionId × Bank :=
  match c with
  | .create a => b.create_account a
  | .deposit a m => b.deposit a m
  | .withdraw a m => b.withdraw a m
  | .transfer s r m => b.transfer s r m

def applyCmd (b : Bank) (c : Cmd) : Bank := (runCmd b c).2

/-- Run a call sequence against a ledger created empty. -/
def runCmds (cs : List Cmd) : Bank := cs.foldl applyCmd Bank.new

/-- Does the operation reference the account, as source or as transfer
target? -/
def references_account (account : String) (op : Operation) : Bool :=
  op.source_account == account ||
    match op.operation_type with
    | .transfer target_account => target_account == account
    | _ => false

/-! ### Association-list lemmas -/

theorem lookupA_updateA {κ β : Type} [DecidableEq κ] (l : List (κ × β)) (k a : κ) (v : β) :
    lookupA (updateA l k v) a = if k = a then some v else lookupA l a := by
  induction l with
  | nil => simp [updateA, lookupA]
  | cons p rest ih =>
    obtain ⟨k', w⟩ := p
    by_cases hk : k' = k
    · subst hk
      by_cases ha : k' = a <;> simp [updateA, lookupA, ha]
    · by_cases ha : k' = a
      · subst ha
        have : ¬ k = k' := fun h => hk h.symm
        simp [updateA, lookupA, hk, this]
      · simp [updateA, lookupA, hk, ha, ih]

theorem containsA_updateA {κ β : Type} [DecidableEq κ] (l : List (κ × β)) (k a : κ) (v : β) :
    containsA (updateA l k v) a = if k = a then true else containsA l a := by
  simp only [containsA, lookupA_updateA]
  split <;> simp

theorem containsA_eq_false_iff {κ β : Type} [DecidableEq κ] (l : List (κ × β)) (a : κ) :
    containsA l a = false ↔ lookupA l a = none := by
  cases h : lookupA l a <;> simp [containsA, h]

theorem containsA_eq_true_iff {κ β : Type} [DecidableEq κ] (l : List (κ × β)) (a : κ) :
    containsA l a = true ↔ ∃ v, lookupA l a = some v := by
  simp [containsA, Option.isSome_iff_exists]

theorem lookupA_append_of_some {κ β : Type} [DecidableEq κ] {l₁ : List (κ × β)}
    (l₂ : List (κ × β)) {a : κ} {v : β} (h : lookupA l₁ a = some v) :
    lookupA (l₁ ++ l₂) a = some v := by
  induction l₁ with
  | nil => simp [lookupA] at h
  | cons p rest ih =>
    obtain ⟨k, w⟩ := p
    by_cases hk : k = a
    · simp [lookupA, hk] at h ⊢; exact h
    · simp [lookupA, hk] at h ⊢; exact ih h

theorem lookupA_append_of_none {κ β : Type} [DecidableEq κ] {l₁ : List (κ × β)}
    (l₂ : List (κ × β)) {a : κ} (h : lookupA l₁ a = none) :
    lookupA (l₁ ++ l₂) a = lookupA l₂ a := by
  induction l₁ with
  | nil => simp
  | cons p rest ih =>
    obtain ⟨k, w⟩ := p
    by_cases hk : k = a
    · simp [lookupA, hk] at h
    · simp [lookupA, hk] at h ⊢; exact ih h

theorem lookupA_none_of_lt {β : Type} (l : List (TransactionId × β)) (k : TransactionId)
    (h : ∀ p ∈ l, p.1 < k) : lookupA l k = none := by
  induction l with
  | nil => simp [lookupA]
  | cons p rest ih =>
    obtain ⟨k', w⟩ := p
    have h1 : k' < k := h (k', w) (by simp)
    have h2 : ¬ k' = k := Nat.ne_of_lt h1
    simp only [lookupA, h2, if_false]
    exact ih (fun q hq => h q (by simp [hq]))

theorem lookupA_pushHistoryId (ah : List (String × List TransactionId)) (acct a : String)
    (id : TransactionId) :
    lookupA (pushHistoryId ah acct id) a =
      if acct = a then some (((lookupA ah acct).getD []) ++ [id]) else lookupA ah a := by
  simp [pushHistoryId, lookupA_updateA]

/-! ### Sums and flows -/

/-- Total of all balances in the account map. -/
def sum_balances (l : List (String × Money)) : Money :=
  (l.map (fun p => p.2)).sum

/-- The contribution of one logged operation to the total balance. -/
def op_delta (op : Operation) : Money :=
  match op.operation_type with
  | .deposit => op.amount
  | .withdraw => -op.amount
  | _ => 0

/-- Net deposits minus net withdrawals over a log. -/
def net_flow (h : List (TransactionId × Operation)) : Money :=
  (h.map (fun p => op_delta p.2)).sum

theorem sum_balances_updateA (l : List (String × Money)) (k : String) (v : Money) :
    sum_balances (updateA l k v) = sum_balances l + v - ((lookupA l k).getD 0) := by
  induction l with
  | nil => simp [updateA, sum_balances, lookupA]
  | cons p rest ih =>
    obtain ⟨k', w⟩ := p
    by_cases hk : k' = k
    · subst hk
      simp [updateA, sum_balances, lookupA]
      ring
    · simp only [updateA, hk, if_false, sum_balances, List.map_cons, List.sum_cons,
        lookupA] at ih ⊢
      rw [ih]
      ring

theorem net_flow_append (l₁ l₂ : List (TransactionId × Operation)) :
    net_flow (l₁ ++ l₂) = net_flow l₁ + net_flow l₂ := by
  simp [net_flow]

/-! ### Sorted-insert lemmas -/

theorem insertSorted_eq_append (l : List (TransactionId × Operation)) (k : TransactionId)
    (v : Operation) (h : ∀ p ∈ l, p.1 < k) : insertSorted l k v = l ++ [(k, v)] := by
  induction l with
  | nil => simp [insertSorted]
  | cons p rest ih =>
    obtain ⟨k', v'⟩ := p
    have h1 : k' < k := h (k', v') (by simp)
    have h2 : ¬ k < k' := Nat.lt_asymm h1
    have h3 : ¬ k = k' := Ne.symm (Nat.ne_of_lt h1)
    simp only [insertSorted, h2, if_false, h3, List.cons_append, List.cons.injEq, true_and]
    exact ih (fun q hq => h q (by simp [hq]))

/-! ### Characterization of the four mutating operations -/

theorem create_account_exists (b : Bank) (a : String) (h : containsA b.accounts a = true) :
    b.create_account a = (.error (.accountDuplication a), b) := by
  simp [Bank.create_account, h]

theorem create_account_success (b : Bank) (a : String) (h : containsA b.accounts a = false) :
    b.create_account a =
      (.ok b.nextId,
       ⟨updateA b.accounts a 0,
        pushHistoryId b.accounts_history a b.nextId,
        insertSorted b.history b.nextId ⟨b.nextId, a, 0, .createAccount⟩,
        b.nextId + 1⟩) := by
  simp [Bank.create_account, h, Bank.get_next_id, Bank.push_transaction,
    transferTargetMissing, containsA_updateA]

theorem deposit_not_found (b : Bank) (a : String) (m : Money)
    (h : containsA b.accounts a = false) :
    b.deposit a m = (.error (.accountNotFound a), b) := by
  simp [Bank.deposit, h]

theorem deposit_neg (b : Bank) (a : String) (m bal : Money)
    (hl : lookupA b.accounts a = some bal) (hm : m ≤ 0) :
    b.deposit a m = (.error (.amountNegative a m), b) := by
  have hc : containsA b.accounts a = true := by simp [containsA, hl]
  simp [Bank.deposit, hc, hl, hm]

theorem deposit_success (b : Bank) (a : String) (m bal : Money)
    (hl : lookupA b.accounts a = some bal) (hm : ¬ m ≤ 0) :
    b.deposit a m =
      (.ok b.nextId,
       ⟨updateA b.accounts a (bal + m),
        pushHistoryId b.accounts_history a b.nextId,
        insertSorted b.history b.nextId ⟨b.nextId, a, m, .deposit⟩,
        b.nextId + 1⟩) := by
  have hc : containsA b.accounts a = true := by simp [containsA, hl]
  simp [Bank.deposit, hc, hl, hm, Bank.get_next_id, Bank.push_transaction,
    transferTargetMissing, containsA_updateA]

theorem withdraw_not_found (b : Bank) (a : String) (m : Money)
    (h : containsA b.accounts a = false) :
    b.withdraw a m = (.error (.accountNotFound a), b) := by
  simp [Bank.withdraw, h]

theorem withdraw_neg (b : Bank) (a : String) (m bal : Money)
    (hl : lookupA b.accounts a = some bal) (hm : m ≤ 0) :
    b.withdraw a m = (.error (.amountNegative a m), { b with nextId := b.nextId + 1 }) := by
  have hc : containsA b.accounts a = true := by simp [containsA, hl]
  simp [Bank.withdraw, hc, hl, hm, Bank.get_next_id]

theorem withdraw_insufficient (b : Bank) (a : String) (m bal : Money)
    (hl : lookupA b.accounts a = some bal) (hm : ¬ m ≤ 0) (hb : bal < m) :
    b.withdraw a m =
      (.error (.insufficientFunds a m bal), { b with nextId := b.nextId + 1 }) := by
  have hc : containsA b.accounts a = true := by simp [containsA, hl]
  simp [Bank.withdraw, hc, hl, hm, hb, Bank.get_next_id]

theorem withdraw_success (b : Bank) (a : String) (m bal : Money)
    (hl : lookupA b.accounts a = some bal) (hm : ¬ m ≤ 0) (hb : ¬ bal < m) :
    b.withdraw a m =
      (.ok b.nextId,
       ⟨updateA b.accounts a (bal - m),
        pushHistoryId b.accounts_history a b.nextId,
        insertSorted b.history b.nextId ⟨b.nextId, a, m, .withdraw⟩,
        b.nextId + 1⟩) := by
  have hc : containsA b.accounts a = true := by simp [containsA, hl]
  simp [Bank.withdraw, hc, hl, hm, hb, Bank.get_next_id, Bank.push_transaction,
    transferTargetMissing, containsA_updateA]

theorem transfer_sender_not_found (b : Bank) (s r : String) (m : Money)
    (h : containsA b.accounts s = false) :
    b.transfer s r m = (.error (.accountNotFound s), b) := by
  simp [Bank.transfer, h]

theorem transfer_receiver_not_found (b : Bank) (s r : String) (m : Money)
    (hs : containsA b.accounts s = true) (hr : containsA b.accounts r = false) :
    b.transfer s r m = (.error (.accountNotFound r), b) := by
  simp [Bank.transfer, hs, hr]

theorem transfer_same_account (b : Bank) (s : String) (m : Money)
    (hs : containsA b.accounts s = true) :
    b.transfer s s m = (.error (.someAccountTransfer s), b) := by
  simp [Bank.transfer, hs]

theorem transfer_neg (b : Bank) (s r : String) (m bs br : Money)
    (hs : lookupA b.accounts s = some bs) (hr : lookupA b.accounts r = some br)
    (hne : ¬ s = r) (hm : m ≤ 0) :
    b.transfer s r m = (.error (.amountNegative s m), b) := by
  have hcs : containsA b.accounts s = true := by simp [containsA, hs]
  have hcr : containsA b.accounts r = true := by simp [containsA, hr]
  simp [Bank.transfer, hcs, hcr, hne, hs, hr, hm]

theorem transfer_insufficient (b : Bank) (s r : String) (m bs br : Money)
    (hs : lookupA b.accounts s = some bs) (hr : lookupA b.accounts r = some br)
    (hne : ¬ s = r) (hm : ¬ m ≤ 0) (hb : bs < m) :
    b.transfer s r m = (.error (.insufficientFunds s m bs), b) := by
  have hcs : containsA b.accounts s = true := by simp [containsA, hs]
  have hcr : containsA b.accounts r = true := by simp [containsA, hr]
  simp [Bank.transfer, hcs, hcr, hne, hs, hr, hm, hb]

theorem transfer_success (b : Bank) (s r : String) (m bs br : Money)
    (hs : lookupA b.accounts s = some bs) (hr : lookupA b.accounts r = some br)
    (hne : ¬ s = r) (hm : ¬ m ≤ 0) (hb : ¬ bs < m) :
    b.transfer s r m =
      (.ok b.nextId,
       ⟨updateA (updateA b.accounts s (bs - m)) r (br + m),
        pushHistoryId (pushHistoryId b.accounts_history s b.nextId) r b.nextId,
        insertSorted b.history b.nextId ⟨b.nextId, s, m, .transfer r⟩,
        b.nextId + 1⟩) := by
  have hcs : containsA b.accounts s = true := by simp [containsA, hs]
  have hcr : containsA b.accounts r = true := by simp [containsA, hr]
  have hrs : ¬ r = s := fun h => hne h.symm
  simp [Bank.transfer, hcs, hcr, hne, hs, hr, hm, hb, Bank.get_next_id,
    Bank.push_transaction, transferTargetMissing, containsA_updateA, hrs]

/-! ### Reachable-state invariant -/

/-- Invariant satisfied by every bank reachable from `Bank.new` through
the public mutating interface. -/
structure Inv (b : Bank) : Prop where
  hist_lt : ∀ p ∈ b.history, p.1 < b.nextId
  ah_lt : ∀ a ids, lookupA b.accounts_history a = some ids → ∀ t ∈ ids, t < b.nextId
  nonneg : ∀ a m, lookupA b.accounts a = some m → 0 ≤ m
  conserve : sum_balances b.accounts = net_flow b.history
  hist_dom : ∀ a, containsA b.accounts a = false → lookupA b.accounts_history a = none
  not_referenced : ∀ a, containsA b.accounts a = false →
      b.get_history.filter (references_account a) = []
  filter_eq : ∀ a, containsA b.accounts a = true →
      accountOps b a = b.get_history.filter (references_account a)
  first_create : ∀ a, containsA b.accounts a = true →
      ∃ id rest, accountOps b a = (⟨id, a, 0, .createAccount⟩ : Operation) :: rest

theorem Inv_new : Inv Bank.new := by
  refine ⟨?_, ?_, ?_, ?_, ?_, ?_, ?_, ?_⟩ <;>
    simp [Bank.new, lookupA, containsA, sum_balances, net_flow, Bank.get_history]

theorem ah_lt_getD {b : Bank} (h : Inv b) (a : String) :
    ∀ t ∈ (lookupA b.accounts_history a).getD [], t < b.nextId := by
  cases hah : lookupA b.accounts_history a with
  | none => simp
  | some ids => simpa using h.ah_lt a ids hah

theorem lookupA_history_append_old (b : Bank) (op : Operation) (t : TransactionId)
    (ht : t < b.nextId) :
    lookupA (b.history ++ [(b.nextId, op)]) t = lookupA b.history t := by
  cases h : lookupA b.history t with
  | some v => exact lookupA_append_of_some _ h
  | none =>
    rw [lookupA_append_of_none _ h]
    have hne : ¬ b.nextId = t := Ne.symm (Nat.ne_of_lt ht)
    simp [lookupA, hne]

theorem lookupA_history_append_new (b : Bank) (op : Operation)
    (hlt : ∀ p ∈ b.history, p.1 < b.nextId) :
    lookupA (b.history ++ [(b.nextId, op)]) b.nextId = some op := by
  rw [lookupA_append_of_none _ (lookupA_none_of_lt _ _ hlt)]
  simp [lookupA]

theorem map_ids_append (b : Bank) (op : Operation) (ids : List TransactionId)
    (hids : ∀ t ∈ ids, t < b.nextId) :
    ids.map (fun t => (lookupA (b.history ++ [(b.nextId, op)]) t).getD defaultOperation) =
      ids.map (fun t => (lookupA b.history t).getD defaultOperation) := by
  induction ids with
  | nil => simp
  | cons t rest ih =>
    have h1 := hids t (by simp)
    simp only [List.map_cons, lookupA_history_append_old b op t h1]
    rw [ih (fun u hu => hids u (by simp [hu]))]

/-- Effect of a successful non-transfer operation on every per-account
history: the source account gets the new operation appended, others are
untouched. -/
theorem accountOps_push (b : Bank) (acc' : List (String × Money)) (src : String)
    (op : Operation) (n' : Nat)
    (hlt : ∀ p ∈ b.history, p.1 < b.nextId)
    (hah : ∀ a ids, lookupA b.accounts_history a = some ids → ∀ t ∈ ids, t < b.nextId)
    (a : String) :
    accountOps ⟨acc', pushHistoryId b.accounts_history src b.nextId,
        b.history ++ [(b.nextId, op)], n'⟩ a =
      (if src = a then accountOps b a ++ [op] else accountOps b a) := by
  have hgetd : ∀ x, ∀ t ∈ (lookupA b.accounts_history x).getD [], t < b.nextId := by
    intro x
    cases hx : lookupA b.accounts_history x with
    | none => simp
    | some ids => simpa using hah x ids hx
  by_cases hsrc : src = a
  · subst hsrc
    simp only [accountOps, lookupA_pushHistoryId, if_pos rfl, ite_true, Option.getD_some,
      List.map_append]
    rw [map_ids_append b op _ (hgetd src)]
    simp [lookupA_history_append_new b op hlt]
  · simp only [accountOps, lookupA_pushHistoryId, if_neg hsrc]
    exact map_ids_append b op _ (hgetd a)

/-- Effect of a successful transfer on every per-account history: sender
and receiver get the operation appended, others are untouched. -/
theorem accountOps_push2 (b : Bank) (acc' : List (String × Money)) (s r : String)
    (op : Operation) (n' : Nat)
    (hlt : ∀ p ∈ b.history, p.1 < b.nextId)
    (hah : ∀ a ids, lookupA b.accounts_history a = some ids → ∀ t ∈ ids, t < b.nextId)
    (hsr : ¬ s = r) (a : String) :
    accountOps ⟨acc', pushHistoryId (pushHistoryId b.accounts_history s b.nextId) r b.nextId,
        b.history ++ [(b.nextId, op)], n'⟩ a =
      (if s = a then accountOps b a ++ [op]
       else if r = a then accountOps b a ++ [op]
       else accountOps b a) := by
  have hgetd : ∀ x, ∀ t ∈ (lookupA b.accounts_history x).getD [], t < b.nextId := by
    intro x
    cases hx : lookupA b.accounts_history x with
    | none => simp
    | some ids => simpa using hah x ids hx
  by_cases hr : r = a
  · subst hr
    have hs : ¬ s = r := hsr
    simp only [accountOps, lookupA_pushHistoryId, if_pos rfl, ite_true, if_neg hs,
      Option.getD_some, List.map_append]
    rw [map_ids_append b op _ (hgetd r)]
    simp [lookupA_history_append_new b op hlt, hs]
  · by_cases hs : s = a
    · subst hs
      simp only [accountOps, lookupA_pushHistoryId, if_neg hr, if_pos rfl, ite_true,
        Option.getD_some, List.map_append]
      rw [map_ids_append b op _ (hgetd s)]
      simp [lookupA_history_append_new b op hlt]
    · simp only [accountOps, lookupA_pushHistoryId, if_neg hr, if_neg hs]
      exact map_ids_append b op _ (hgetd a)

theorem Inv_bumpId (b : Bank) (h : Inv b) : Inv { b with nextId := b.nextId + 1 } := by
  refine ⟨?_, ?_, h.nonneg, h.conserve, h.hist_dom, h.not_referenced, h.filter_eq,
    h.first_create⟩
  · intro p hp
    exact Nat.lt_succ_of_lt (h.hist_lt p hp)
  · intro a ids hids t ht
    exact Nat.lt_succ_of_lt (h.ah_lt a ids hids t ht)

theorem Inv_deposit (b : Bank) (a : String) (m : Money) (h : Inv b) :
    Inv (b.deposit a m).2 := by
  cases hc : containsA b.accounts a with
  | false => rw [deposit_not_found b a m hc]; exact h
  | true =>
    obtain ⟨bal, hl⟩ := (containsA_eq_true_iff _ _).1 hc
    by_cases hm : m ≤ 0
    · rw [deposit_neg b a m bal hl hm]; exact h
    · rw [deposit_success b a m bal hl hm]
      rw [insertSorted_eq_append _ _ _ h.hist_lt]
      refine ⟨?_, ?_, ?_, ?_, ?_, ?_, ?_, ?_⟩
      · intro p hp
        rcases List.mem_append.1 hp with h1 | h1
        · exact Nat.lt_succ_of_lt (h.hist_lt p h1)
        · simp only [List.mem_singleton] at h1
          subst h1
          exact Nat.lt_succ_self _
      · intro a' ids hids t ht
        rw [lookupA_pushHistoryId] at hids
        by_cases ha : a = a'
        · rw [if_pos ha] at hids
          have hids' := Option.some.inj hids
          subst hids'
          rcases List.mem_append.1 ht with h1 | h1
          · exact Nat.lt_succ_of_lt (ah_lt_getD h a t h1)
          · simp only [List.mem_singleton] at h1
            subst h1
            exact Nat.lt_succ_self _
        · rw [if_neg ha] at hids
          exact Nat.lt_succ_of_lt (h.ah_lt a' ids hids t ht)
      · intro a' m' hm'
        rw [lookupA_updateA] at hm'
        by_cases ha : a = a'
        · rw [if_pos ha] at hm'
          have e := Option.some.inj hm'
          have h0 : 0 ≤ bal := h.nonneg a bal hl
          have hm0 : (0 : Money) < m := not_le.mp hm
          rw [← e]
          linarith
        · rw [if_neg ha] at hm'
          exact h.nonneg a' m' hm'
      · show sum_balances (updateA b.accounts a (bal + m)) = _
        rw [sum_balances_updateA, hl, net_flow_append, ← h.conserve]
        simp only [Option.getD_some, net_flow, List.map_cons, List.map_nil,
          List.sum_cons, List.sum_nil, op_delta]
        ring
      · intro a' ha'
        rw [containsA_updateA] at ha'
        by_cases ha : a = a'
        · rw [if_pos ha] at ha'; exact absurd ha' (by simp)
        · rw [if_neg ha] at ha'
          rw [lookupA_pushHistoryId, if_neg ha]
          exact h.hist_dom a' ha'
      · intro a' ha'
        rw [containsA_updateA] at ha'
        by_cases ha : a = a'
        · rw [if_pos ha] at ha'; exact absurd ha' (by simp)
        · rw [if_neg ha] at ha'
          show ((b.history ++ [(b.nextId, (⟨b.nextId, a, m, .deposit⟩ : Operation))]).map
            (fun p => p.2)).filter (references_account a') = []
          rw [List.map_append, List.filter_append]
          have h1 : b.get_history.filter (references_account a') = [] :=
            h.not_referenced a' ha'
          rw [Bank.get_history] at h1
          rw [h1]
          simp [references_account, ha]
      · intro a' hc'
        rw [accountOps_push b (updateA b.accounts a (bal + m)) a
          ⟨b.nextId, a, m, .deposit⟩ (b.nextId + 1) h.hist_lt h.ah_lt a']
        show _ = ((b.history ++ [(b.nextId, (⟨b.nextId, a, m, .deposit⟩ : Operation))]).map
          (fun p => p.2)).filter (references_account a')
        rw [List.map_append, List.filter_append]
        by_cases ha : a = a'
        · subst ha
          rw [if_pos rfl, h.filter_eq a hc]
          rw [Bank.get_history]
          simp [references_account]
        · rw [if_neg ha]
          rw [containsA_updateA, if_neg ha] at hc'
          rw [h.filter_eq a' hc', Bank.get_history]
          simp [references_account, ha]
      · intro a' hc'
        rw [accountOps_push b (updateA b.accounts a (bal + m)) a
          ⟨b.nextId, a, m, .deposit⟩ (b.nextId + 1) h.hist_lt h.ah_lt a']
        by_cases ha : a = a'
        · subst ha
          rw [if_pos rfl]
          obtain ⟨id, rest, hrest⟩ := h.first_create a hc
          exact ⟨id, rest ++ [⟨b.nextId, a, m, .deposit⟩], by rw [hrest]; simp⟩
        · rw [if_neg ha]
          rw [containsA_updateA, if_neg ha] at hc'
          exact h.first_create a' hc'

theorem Inv_create (b : Bank) (a : String) (h : Inv b) :
    Inv (b.create_account a).2 := by
  cases hc : containsA b.accounts a with
  | true => rw [create_account_exists b a hc]; exact h
  | false =>
    have hl : lookupA b.accounts a = none := (containsA_eq_false_iff _ _).1 hc
    have hops : accountOps b a = [] := by
      simp [accountOps, h.hist_dom a hc]
    rw [create_account_success b a hc]
    rw [insertSorted_eq_append _ _ _ h.hist_lt]
    refine ⟨?_, ?_, ?_, ?_, ?_, ?_, ?_, ?_⟩
    · intro p hp
      rcases List.mem_append.1 hp with h1 | h1
      · exact Nat.lt_succ_of_lt (h.hist_lt p h1)
      · simp only [List.mem_singleton] at h1
        subst h1
        exact Nat.lt_succ_self _
    · intro a' ids hids t ht
      rw [lookupA_pushHistoryId] at hids
      by_cases ha : a = a'
      · rw [if_pos ha] at hids
        have hids' := Option.some.inj hids
        subst hids'
        rcases List.mem_append.1 ht with h1 | h1
        · exact Nat.lt_succ_of_lt (ah_lt_getD h a t h1)
        · simp only [List.mem_singleton] at h1
          subst h1
          exact Nat.lt_succ_self _
      · rw [if_neg ha] at hids
        exact Nat.lt_succ_of_lt (h.ah_lt a' ids hids t ht)
    · intro a' m' hm'
      rw [lookupA_updateA] at hm'
      by_cases ha : a = a'
      · rw [if_pos ha] at hm'
        have e := Option.some.inj hm'
        rw [← e]
      · rw [if_neg ha] at hm'
        exact h.nonneg a' m' hm'
    · show sum_balances (updateA b.accounts a 0) = _
      rw [sum_balances_updateA, hl, net_flow_append, ← h.conserve]
      simp [net_flow, op_delta]
    · intro a' ha'
      rw [containsA_updateA] at ha'
      by_cases ha : a = a'
      · rw [if_pos ha] at ha'; exact absurd ha' (by simp)
      · rw [if_neg ha] at ha'
        rw [lookupA_pushHistoryId, if_neg ha]
        exact h.hist_dom a' ha'
    · intro a' ha'
      rw [containsA_updateA] at ha'
      by_cases ha : a = a'
      · rw [if_pos ha] at ha'; exact absurd ha' (by simp)
      · rw [if_neg ha] at ha'
        show ((b.history ++ [(b.nextId, (⟨b.nextId, a, 0, .createAccount⟩ : Operation))]).map
          (fun p => p.2)).filter (references_account a') = []
        rw [List.map_append, List.filter_append]
        have h1 : b.get_history.filter (references_account a') = [] :=
          h.not_referenced a' ha'
        rw [Bank.get_history] at h1
        rw [h1]
        simp [references_account, ha]
    · intro a' hc'
      rw [accountOps_push b (updateA b.accounts a 0) a
        (⟨b.nextId, a, 0, .createAccount⟩ : Operation) (b.nextId + 1) h.hist_lt h.ah_lt a']
      show _ = ((b.history ++ [(b.nextId, (⟨b.nextId, a, 0, .createAccount⟩ : Operation))]).map
        (fun p => p.2)).filter (references_account a')
      rw [List.map_append, List.filter_append]
      by_cases ha : a = a'
      · subst ha
        rw [if_pos rfl, hops]
        have h1 : b.get_history.filter (references_account a) = [] :=
          h.not_referenced a hc
        rw [Bank.get_history] at h1
        rw [h1]
        simp [references_account]
      · rw [if_neg ha]
        rw [containsA_updateA, if_neg ha] at hc'
        rw [h.filter_eq a' hc', Bank.get_history]
        simp [references_account, ha]
    · intro a' hc'
      rw [accountOps_push b (updateA b.accounts a 0) a
        (⟨b.nextId, a, 0, .createAccount⟩ : Operation) (b.nextId + 1) h.hist_lt h.ah_lt a']
      by_cases ha : a = a'
      · subst ha
        rw [if_pos rfl, hops]
        exact ⟨b.nextId, [], by simp⟩
      · rw [if_neg ha]
        rw [containsA_updateA, if_neg ha] at hc'
        exact h.first_create a' hc'

theorem Inv_withdraw (b : Bank) (a : String) (m : Money) (h : Inv b) :
    Inv (b.withdraw a m).2 := by
  cases hc : containsA b.accounts a with
  | false => rw [withdraw_not_found b a m hc]; exact h
  | true =>
    obtain ⟨bal, hl⟩ := (containsA_eq_true_iff _ _).1 hc
    by_cases hm : m ≤ 0
    · rw [withdraw_neg b a m bal hl hm]; exact Inv_bumpId b h
    · by_cases hb : bal < m
      · rw [withdraw_insufficient b a m bal hl hm hb]; exact Inv_bumpId b h
      · rw [withdraw_success b a m bal hl hm hb]
        rw [insertSorted_eq_append _ _ _ h.hist_lt]
        refine ⟨?_, ?_, ?_, ?_, ?_, ?_, ?_, ?_⟩
        · intro p hp
          rcases List.mem_append.1 hp with h1 | h1
          · exact Nat.lt_succ_of_lt (h.hist_lt p h1)
          · simp only [List.mem_singleton] at h1
            subst h1
            exact Nat.lt_succ_self _
        · intro a' ids hids t ht
          rw [lookupA_pushHistoryId] at hids
          by_cases ha : a = a'
          · rw [if_pos ha] at hids
            have hids' := Option.some.inj hids
            subst hids'
            rcases List.mem_append.1 ht with h1 | h1
            · exact Nat.lt_succ_of_lt (ah_lt_getD h a t h1)
            · simp only [List.mem_singleton] at h1
              subst h1
              exact Nat.lt_succ_self _
          · rw [if_neg ha] at hids
            exact Nat.lt_succ_of_lt (h.ah_lt a' ids hids t ht)
        · intro a' m' hm'
          rw [lookupA_updateA] at hm'
          by_cases ha : a = a'
          · rw [if_pos ha] at hm'
            have e := Option.some.inj hm'
            have hmb : m ≤ bal := not_lt.mp hb
            rw [← e]
            linarith
          · rw [if_neg ha] at hm'
            exact h.nonneg a' m' hm'
        · show sum_balances (updateA b.accounts a (bal - m)) = _
          rw [sum_balances_updateA, hl, net_flow_append, ← h.conserve]
          simp only [Option.getD_some, net_flow, List.map_cons, List.map_nil,
            List.sum_cons, List.sum_nil, op_delta]
          ring
        · intro a' ha'
          rw [containsA_updateA] at ha'
          by_cases ha : a = a'
          · rw [if_pos ha] at ha'; exact absurd ha' (by simp)
          · rw [if_neg ha] at ha'
            rw [lookupA_pushHistoryId, if_neg ha]
            exact h.hist_dom a' ha'
        · intro a' ha'
          rw [containsA_updateA] at ha'
          by_cases ha : a = a'
          · rw [if_pos ha] at ha'; exact absurd ha' (by simp)
          · rw [if_neg ha] at ha'
            show ((b.history ++ [(b.nextId, (⟨b.nextId, a, m, .withdraw⟩ : Operation))]).map
              (fun p => p.2)).filter (references_account a') = []
            rw [List.map_append, List.filter_append]
            have h1 : b.get_history.filter (references_account a') = [] :=
              h.not_referenced a' ha'
            rw [Bank.get_history] at h1
            rw [h1]
            simp [references_account, ha]
        · intro a' hc'
          rw [accountOps_push b (updateA b.accounts a (bal - m)) a
            (⟨b.nextId, a, m, .withdraw⟩ : Operation) (b.nextId + 1) h.hist_lt h.ah_lt a']
          show _ = ((b.history ++ [(b.nextId, (⟨b.nextId, a, m, .withdraw⟩ : Operation))]).map
            (fun p => p.2)).filter (references_account a')
          rw [List.map_append, List.filter_append]
          by_cases ha : a = a'
          · subst ha
            rw [if_pos rfl, h.filter_eq a hc]
            rw [Bank.get_history]
            simp [references_account]
          · rw [if_neg ha]
            rw [containsA_updateA, if_neg ha] at hc'
            rw [h.filter_eq a' hc', Bank.get_history]
            simp [references_account, ha]
        · intro a' hc'
          rw [accountOps_push b (updateA b.accounts a (bal - m)) a
            (⟨b.nextId, a, m, .withdraw⟩ : Operation) (b.nextId + 1) h.hist_lt h.ah_lt a']
          by_cases ha : a = a'
          · subst ha
            rw [if_pos rfl]
            obtain ⟨id, rest, hrest⟩ := h.first_create a hc
            exact ⟨id, rest ++ [⟨b.nextId, a, m, .withdraw⟩], by rw [hrest]; simp⟩
          · rw [if_neg ha]
            rw [containsA_updateA, if_neg ha] at hc'
            exact h.first_create a' hc'

theorem Inv_transfer (b : Bank) (s r : String) (m : Money) (h : Inv b) :
    Inv (b.transfer s r m).2 := by
  cases hcs : containsA b.accounts s with
  | false => rw [transfer_sender_not_found b s r m hcs]; exact h
  | true =>
    cases hcr : containsA b.accounts r with
    | false => rw [transfer_receiver_not_found b s r m hcs hcr]; exact h
    | true =>
      by_cases hsr : s = r
      · subst hsr
        rw [transfer_same_account b s m hcs]
        exact h
      · obtain ⟨bs, hs⟩ := (containsA_eq_true_iff _ _).1 hcs
        obtain ⟨br, hr⟩ := (containsA_eq_true_iff _ _).1 hcr
        by_cases hm : m ≤ 0
        · rw [transfer_neg b s r m bs br hs hr hsr hm]; exact h
        · by_cases hb : bs < m
          · rw [transfer_insufficient b s r m bs br hs hr hsr hm hb]; exact h
          · rw [transfer_success b s r m bs br hs hr hsr hm hb]
            rw [insertSorted_eq_append _ _ _ h.hist_lt]
            have hrs : ¬ r = s := fun e => hsr e.symm
            have hinner : lookupA (pushHistoryId b.accounts_history s b.nextId) r =
                lookupA b.accounts_history r := by
              rw [lookupA_pushHistoryId, if_neg hsr]
            have hlr : lookupA (updateA b.accounts s (bs - m)) r =
                some br := by
              rw [lookupA_updateA, if_neg hsr, hr]
            refine ⟨?_, ?_, ?_, ?_, ?_, ?_, ?_, ?_⟩
            · intro p hp
              rcases List.mem_append.1 hp with h1 | h1
              · exact Nat.lt_succ_of_lt (h.hist_lt p h1)
              · simp only [List.mem_singleton] at h1
                subst h1
                exact Nat.lt_succ_self _
            · intro a' ids hids t ht
              rw [lookupA_pushHistoryId, hinner] at hids
              by_cases hra : r = a'
              · rw [if_pos hra] at hids
                have hids' := Option.some.inj hids
                subst hids'
                rcases List.mem_append.1 ht with h1 | h1
                · exact Nat.lt_succ_of_lt (ah_lt_getD h r t h1)
                · simp only [List.mem_singleton] at h1
                  subst h1
                  exact Nat.lt_succ_self _
              · rw [if_neg hra, lookupA_pushHistoryId] at hids
                by_cases hsa : s = a'
                · rw [if_pos hsa] at hids
                  have hids' := Option.some.inj hids
                  subst hids'
                  rcases List.mem_append.1 ht with h1 | h1
                  · exact Nat.lt_succ_of_lt (ah_lt_getD h s t h1)
                  · simp only [List.mem_singleton] at h1
                    subst h1
                    exact Nat.lt_succ_self _
                · rw [if_neg hsa] at hids
                  exact Nat.lt_succ_of_lt (h.ah_lt a' ids hids t ht)
            · intro a' m' hm'
              rw [lookupA_updateA] at hm'
              by_cases hra : r = a'
              · rw [if_pos hra] at hm'
                have e := Option.some.inj hm'
                have h0 : 0 ≤ br := h.nonneg r br hr
                have hm0 : (0 : Money) < m := not_le.mp hm
                rw [← e]
                linarith
              · rw [if_neg hra, lookupA_updateA] at hm'
                by_cases hsa : s = a'
                · rw [if_pos hsa] at hm'
                  have e := Option.some.inj hm'
                  have hmb : m ≤ bs := not_lt.mp hb
                  rw [← e]
                  linarith
                · rw [if_neg hsa] at hm'
                  exact h.nonneg a' m' hm'
            · show sum_balances (updateA (updateA b.accounts s (bs - m)) r (br + m)) = _
              rw [sum_balances_updateA, hlr, sum_balances_updateA, hs,
                net_flow_append, ← h.conserve]
              simp only [Option.getD_some, net_flow, List.map_cons, List.map_nil,
                List.sum_cons, List.sum_nil, op_delta]
              ring
            · intro a' ha'
              rw [containsA_updateA] at ha'
              by_cases hra : r = a'
              · rw [if_pos hra] at ha'; exact absurd ha' (by simp)
              · rw [if_neg hra, containsA_updateA] at ha'
                by_cases hsa : s = a'
                · rw [if_pos hsa] at ha'; exact absurd ha' (by simp)
                · rw [if_neg hsa] at ha'
                  rw [lookupA_pushHistoryId, hinner, if_neg hra,
                    lookupA_pushHistoryId, if_neg hsa]
                  exact h.hist_dom a' ha'
            · intro a' ha'
              rw [containsA_updateA] at ha'
              by_cases hra : r = a'
              · rw [if_pos hra] at ha'; exact absurd ha' (by simp)
              · rw [if_neg hra, containsA_updateA] at ha'
                by_cases hsa : s = a'
                · rw [if_pos hsa] at ha'; exact absurd ha' (by simp)
                · rw [if_neg hsa] at ha'
                  show ((b.history ++
                    [(b.nextId, (⟨b.nextId, s, m, .transfer r⟩ : Operation))]).map
                    (fun p => p.2)).filter (references_account a') = []
                  rw [List.map_append, List.filter_append]
                  have h1 : b.get_history.filter (references_account a') = [] :=
                    h.not_referenced a' ha'
                  rw [Bank.get_history] at h1
                  rw [h1]
                  simp [references_account, hsa, hra]
            · intro a' hc'
              rw [accountOps_push2 b (updateA (updateA b.accounts s (bs - m)) r (br + m))
                s r (⟨b.nextId, s, m, .transfer r⟩ : Operation) (b.nextId + 1)
                h.hist_lt h.ah_lt hsr a']
              show _ = ((b.history ++
                [(b.nextId, (⟨b.nextId, s, m, .transfer r⟩ : Operation))]).map
                (fun p => p.2)).filter (references_account a')
              rw [List.map_append, List.filter_append]
              by_cases hsa : s = a'
              · subst hsa
                rw [if_pos rfl, h.filter_eq s hcs]
                rw [Bank.get_history]
                simp [references_account]
              · rw [if_neg hsa]
                by_cases hra : r = a'
                · subst hra
                  rw [if_pos rfl, h.filter_eq r hcr]
                  rw [Bank.get_history]
                  simp [references_account, hsa]
                · rw [if_neg hra]
                  rw [containsA_updateA, if_neg hra, containsA_updateA, if_neg hsa] at hc'
                  rw [h.filter_eq a' hc', Bank.get_history]
                  simp [references_account, hsa, hra]
            · intro a' hc'
              rw [accountOps_push2 b (updateA (updateA b.accounts s (bs - m)) r (br + m))
                s r (⟨b.nextId, s, m, .transfer r⟩ : Operation) (b.nextId + 1)
                h.hist_lt h.ah_lt hsr a']
              by_cases hsa : s = a'
              · subst hsa
                rw [if_pos rfl]
                obtain ⟨id, rest, hrest⟩ := h.first_create s hcs
                exact ⟨id, rest ++ [⟨b.nextId, s, m, .transfer r⟩], by rw [hrest]; simp⟩
              · rw [if_neg hsa]
                by_cases hra : r = a'
                · subst hra
                  rw [if_pos rfl]
                  obtain ⟨id, rest, hrest⟩ := h.first_create r hcr
                  exact ⟨id, rest ++ [⟨b.nextId, s, m, .transfer r⟩], by rw [hrest]; simp⟩
                · rw [if_neg hra]
                  rw [containsA_updateA, if_neg hra, containsA_updateA, if_neg hsa] at hc'
                  exact h.first_create a' hc'

theorem Inv_applyCmd (b : Bank) (c : Cmd) (h : Inv b) : Inv (applyCmd b c) := by
  cases c with
  | create a => exact Inv_create b a h
  | deposit a m => exact Inv_deposit b a m h
  | withdraw a m => exact Inv_withdraw b a m h
  | transfer s r m => exact Inv_transfer b s r m h

theorem Inv_foldl (cs : List Cmd) (b : Bank) (h : Inv b) :
    Inv (cs.foldl applyCmd b) := by
  induction cs generalizing b with
  | nil => exact h
  | cons c rest ih => exact ih (applyCmd b c) (Inv_applyCmd b c h)

theorem Inv_runCmds (cs : List Cmd) : Inv (runCmds cs) :=
  Inv_foldl cs Bank.new Inv_new

/-! ### Operations up to ids, and step lemmas -/

/-- An operation with its id erased: what `replay_history` preserves. -/
structure OpView where
  source_account : String
  amount : Money
  operation_type : OperationType
deriving DecidableEq

def eraseOp (op : Operation) : OpView :=
  ⟨op.source_account, op.amount, op.operation_type⟩

/-- `references_account` on the id-erased view. -/
def references_view (account : String) (v : OpView) : Bool :=
  v.source_account == account ||
    match v.operation_type with
    | .transfer target_account => target_account == account
    | _ => false

theorem references_account_eq_view (account : String) (op : Operation) :
    references_account account op = references_view account (eraseOp op) := rfl

theorem map_erase_filter (account : String) (l : List Operation) :
    (l.filter (references_account account)).map eraseOp =
      (l.map eraseOp).filter (references_view account) := by
  induction l with
  | nil => simp
  | cons op rest ih =>
    cases hop : references_account account op with
    | true =>
      have : references_view account (eraseOp op) = true := by
        rw [← references_account_eq_view]; exact hop
      simp [List.filter_cons, hop, this, ih]
    | false =>
      have : references_view account (eraseOp op) = false := by
        rw [← references_account_eq_view]; exact hop
      simp [List.filter_cons, hop, this, ih]

/-- The operation a successful command logs (its id is the bank's next
generator value). -/
def mkOp (b : Bank) (c : Cmd) : Operation :=
  match c with
  | .create a => ⟨b.nextId, a, 0, .createAccount⟩
  | .deposit a m => ⟨b.nextId, a, m, .deposit⟩
  | .withdraw a m => ⟨b.nextId, a, m, .withdraw⟩
  | .transfer s r m => ⟨b.nextId, s, m, .transfer r⟩

/-- The command `replay_history` re-dispatches for a logged operation. -/
def toCmd (op : Operation) : Cmd :=
  match op.operation_type with
  | .createAccount => .create op.source_account
  | .deposit => .deposit op.source_account op.amount
  | .withdraw => .withdraw op.source_account op.amount
  | .transfer target_account => .transfer op.source_account target_account op.amount

theorem toCmd_mkOp (b : Bank) (c : Cmd) : toCmd (mkOp b c) = c := by
  cases c <;> rfl

/-- A successful transfer implies both accounts exist and are distinct,
the amount is positive, and the sender has the funds. -/
theorem transfer_ok_inv (b : Bank) (s r : String) (m : Money) (id : TransactionId)
    (h : (b.transfer s r m).1 = .ok id) :
    ∃ bs br, lookupA b.accounts s = some bs ∧ lookupA b.accounts r = some br ∧
      ¬ s = r ∧ ¬ m ≤ 0 ∧ ¬ bs < m := by
  cases hcs : containsA b.accounts s with
  | false => rw [transfer_sender_not_found b s r m hcs] at h; simp at h
  | true =>
    cases hcr : containsA b.accounts r with
    | false => rw [transfer_receiver_not_found b s r m hcs hcr] at h; simp at h
    | true =>
      by_cases hsr : s = r
      · subst hsr
        rw [transfer_same_account b s m hcs] at h; simp at h
      · obtain ⟨bs, hs⟩ := (containsA_eq_true_iff _ _).1 hcs
        obtain ⟨br, hr⟩ := (containsA_eq_true_iff _ _).1 hcr
        by_cases hm : m ≤ 0
        · rw [transfer_neg b s r m bs br hs hr hsr hm] at h; simp at h
        · by_cases hb : bs < m
          · rw [transfer_insufficient b s r m bs br hs hr hsr hm hb] at h; simp at h
          · exact ⟨bs, br, hs, hr, hsr, hm, hb⟩

/-- A command that returned an error left the account map, the
per-account index and the log untouched (only the id generator may have
advanced, in `withdraw`). -/
theorem runCmd_error_state (b : Bank) (c : Cmd) (e : BankError)
    (h : (runCmd b c).1 = .error e) :
    (applyCmd b c).accounts = b.accounts ∧
    (applyCmd b c).accounts_history = b.accounts_history ∧
    (applyCmd b c).history = b.history := by
  cases c with
  | create a =>
    cases hc : containsA b.accounts a with
    | true =>
      have e2 : (b.create_account a).2 = b := by rw [create_account_exists b a hc]
      show (b.create_account a).2.accounts = _ ∧ (b.create_account a).2.accounts_history = _ ∧
        (b.create_account a).2.history = _
      rw [e2]
      exact ⟨rfl, rfl, rfl⟩
    | false =>
      have h2 : (b.create_account a).1 = .error e := h
      rw [create_account_success b a hc] at h2
      simp at h2
  | deposit a m =>
    cases hc : containsA b.accounts a with
    | false =>
      have e2 : (b.deposit a m).2 = b := by rw [deposit_not_found b a m hc]
      show (b.deposit a m).2.accounts = _ ∧ (b.deposit a m).2.accounts_history = _ ∧
        (b.deposit a m).2.history = _
      rw [e2]
      exact ⟨rfl, rfl, rfl⟩
    | true =>
      obtain ⟨bal, hl⟩ := (containsA_eq_true_iff _ _).1 hc
      by_cases hm : m ≤ 0
      · have e2 : (b.deposit a m).2 = b := by rw [deposit_neg b a m bal hl hm]
        show (b.deposit a m).2.accounts = _ ∧ (b.deposit a m).2.accounts_history = _ ∧
          (b.deposit a m).2.history = _
        rw [e2]
        exact ⟨rfl, rfl, rfl⟩
      · have h2 : (b.deposit a m).1 = .error e := h
        rw [deposit_success b a m bal hl hm] at h2
        simp at h2
  | withdraw a m =>
    cases hc : containsA b.accounts a with
    | false =>
      have e2 : (b.withdraw a m).2 = b := by rw [withdraw_not_found b a m hc]
      show (b.withdraw a m).2.accounts = _ ∧ (b.withdraw a m).2.accounts_history = _ ∧
        (b.withdraw a m).2.history = _
      rw [e2]
      exact ⟨rfl, rfl, rfl⟩
    | true =>
      obtain ⟨bal, hl⟩ := (containsA_eq_true_iff _ _).1 hc
      by_cases hm : m ≤ 0
      · have e2 : (b.withdraw a m).2 = { b with nextId := b.nextId + 1 } := by
          rw [withdraw_neg b a m bal hl hm]
        show (b.withdraw a m).2.accounts = _ ∧ (b.withdraw a m).2.accounts_history = _ ∧
          (b.withdraw a m).2.history = _
        rw [e2]
        exact ⟨rfl, rfl, rfl⟩
      · by_cases hb : bal < m
        · have e2 : (b.withdraw a m).2 = { b with nextId := b.nextId + 1 } := by
            rw [withdraw_insufficient b a m bal hl hm hb]
          show (b.withdraw a m).2.accounts = _ ∧ (b.withdraw a m).2.accounts_history = _ ∧
            (b.withdraw a m).2.history = _
          rw [e2]
          exact ⟨rfl, rfl, rfl⟩
        · have h2 : (b.withdraw a m).1 = .error e := h
          rw [withdraw_success b a m bal hl hm hb] at h2
          simp at h2
  | transfer s r m =>
    cases hcs : containsA b.accounts s with
    | false =>
      have e2 : (b.transfer s r m).2 = b := by rw [transfer_sender_not_found b s r m hcs]
      show (b.transfer s r m).2.accounts = _ ∧ (b.transfer s r m).2.accounts_history = _ ∧
        (b.transfer s r m).2.history = _
      rw [e2]
      exact ⟨rfl, rfl, rfl⟩
    | true =>
      cases hcr : containsA b.accounts r with
      | false =>
        have e2 : (b.transfer s r m).2 = b := by
          rw [transfer_receiver_not_found b s r m hcs hcr]
        show (b.transfer s r m).2.accounts = _ ∧ (b.transfer s r m).2.accounts_history = _ ∧
          (b.transfer s r m).2.history = _
        rw [e2]
        exact ⟨rfl, rfl, rfl⟩
      | true =>
        by_cases hsr : s = r
        · subst hsr
          have e2 : (b.transfer s s m).2 = b := by rw [transfer_same_account b s m hcs]
          show (b.transfer s s m).2.accounts = _ ∧ (b.transfer s s m).2.accounts_history = _ ∧
            (b.transfer s s m).2.history = _
          rw [e2]
          exact ⟨rfl, rfl, rfl⟩
        · obtain ⟨bs, hs⟩ := (containsA_eq_true_iff _ _).1 hcs
          obtain ⟨br, hr⟩ := (containsA_eq_true_iff _ _).1 hcr
          by_cases hm : m ≤ 0
          · have e2 : (b.transfer s r m).2 = b := by
              rw [transfer_neg b s r m bs br hs hr hsr hm]
            show (b.transfer s r m).2.accounts = _ ∧
              (b.transfer s r m).2.accounts_history = _ ∧ (b.transfer s r m).2.history = _
            rw [e2]
            exact ⟨rfl, rfl, rfl⟩
          · by_cases hb : bs < m
            · have e2 : (b.transfer s r m).2 = b := by
                rw [transfer_insufficient b s r m bs br hs hr hsr hm hb]
              show (b.transfer s r m).2.accounts = _ ∧
                (b.transfer s r m).2.accounts_history = _ ∧ (b.transfer s r m).2.history = _
              rw [e2]
              exact ⟨rfl, rfl, rfl⟩
            · have h2 : (b.transfer s r m).1 = .error e := h
              rw [transfer_success b s r m bs br hs hr hsr hm hb] at h2
              simp at h2

/-- A command that returned ok logged exactly one operation, appended at
the end of the global log, and its id is the generator value consumed. -/
theorem runCmd_ok_state (b : Bank) (c : Cmd) (id : TransactionId) (hInv : Inv b)
    (h : (runCmd b c).1 = .ok id) :
    id = b.nextId ∧
    (applyCmd b c).get_history = b.get_history ++ [mkOp b c] := by
  cases c with
  | create a =>
    cases hc : containsA b.accounts a with
    | true =>
      have h' : (b.create_account a).1 = .ok id := h
      rw [create_account_exists b a hc] at h'
      simp at h'
    | false =>
      have h' : (b.create_account a).1 = .ok id := h
      rw [create_account_success b a hc] at h'
      have hid : b.nextId = id := by simpa using h'
      refine ⟨hid.symm, ?_⟩
      show (b.create_account a).2.get_history = _
      rw [create_account_success b a hc, insertSorted_eq_append _ _ _ hInv.hist_lt]
      simp [Bank.get_history, mkOp]
  | deposit a m =>
    cases hc : containsA b.accounts a with
    | false =>
      have h' : (b.deposit a m).1 = .ok id := h
      rw [deposit_not_found b a m hc] at h'
      simp at h'
    | true =>
      obtain ⟨bal, hl⟩ := (containsA_eq_true_iff _ _).1 hc
      by_cases hm : m ≤ 0
      · have h' : (b.deposit a m).1 = .ok id := h
        rw [deposit_neg b a m bal hl hm] at h'
        simp at h'
      · have h' : (b.deposit a m).1 = .ok id := h
        rw [deposit_success b a m bal hl hm] at h'
        have hid : b.nextId = id := by simpa using h'
        refine ⟨hid.symm, ?_⟩
        show (b.deposit a m).2.get_history = _
        rw [deposit_success b a m bal hl hm, insertSorted_eq_append _ _ _ hInv.hist_lt]
        simp [Bank.get_history, mkOp]
  | withdraw a m =>
    cases hc : containsA b.accounts a with
    | false =>
      have h' : (b.withdraw a m).1 = .ok id := h
      rw [withdraw_not_found b a m hc] at h'
      simp at h'
    | true =>
      obtain ⟨bal, hl⟩ := (containsA_eq_true_iff _ _).1 hc
      by_cases hm : m ≤ 0
      · have h' : (b.withdraw a m).1 = .ok id := h
        rw [withdraw_neg b a m bal hl hm] at h'
        simp at h'
      · by_cases hb : bal < m
        · have h' : (b.withdraw a m).1 = .ok id := h
          rw [withdraw_insufficient b a m bal hl hm hb] at h'
          simp at h'
        · have h' : (b.withdraw a m).1 = .ok id := h
          rw [withdraw_success b a m bal hl hm hb] at h'
          have hid : b.nextId = id := by simpa using h'
          refine ⟨hid.symm, ?_⟩
          show (b.withdraw a m).2.get_history = _
          rw [withdraw_success b a m bal hl hm hb,
            insertSorted_eq_append _ _ _ hInv.hist_lt]
          simp [Bank.get_history, mkOp]
  | transfer s r m =>
    obtain ⟨bs, br, hs, hr, hsr, hm, hb⟩ := transfer_ok_inv b s r m id h
    have h' : (b.transfer s r m).1 = .ok id := h
    rw [transfer_success b s r m bs br hs hr hsr hm hb] at h'
    have hid : b.nextId = id := by simpa using h'
    refine ⟨hid.symm, ?_⟩
    show (b.transfer s r m).2.get_history = _
    rw [transfer_success b s r m bs br hs hr hsr hm hb,
      insertSorted_eq_append _ _ _ hInv.hist_lt]
    simp [Bank.get_history, mkOp]

/-! ### Claim theorems -/

/-- Claim C2: for every sequence of operations applied to a ledger
created empty and every account, `get_balance` never returns a negative
value. -/
theorem C2_get_balance_nonneg (cs : List Cmd) (a : String) (m : Money)
    (h : (runCmds cs).get_balance a = .ok m) : 0 ≤ m := by
  have hInv := Inv_runCmds cs
  cases hc : containsA (runCmds cs).accounts a with
  | false => simp [Bank.get_balance, hc] at h
  | true =>
    obtain ⟨v, hv⟩ := (containsA_eq_true_iff _ _).1 hc
    simp [Bank.get_balance, hc, hv] at h
    rw [← h]
    exact hInv.nonneg a v hv

theorem C2_get_balance_nonneg_witness :
    (runCmds [.create "A", .deposit "A" 7]).get_balance "A" = .ok 7 ∧ (0 : Money) ≤ 7 :=
  ⟨by decide, C2_get_balance_nonneg [.create "A", .deposit "A" 7] "A" 7 (by decide)⟩

/-- Claim C3: `withdraw` on an absent account returns AccountNotFound;
on an existing account with balance `bal`, a non-positive amount returns
AmountNegative, an amount exceeding the balance returns
InsufficientFunds carrying that balance and amount with the balance
unchanged, and otherwise it succeeds, the new balance is `bal - m`, and
exactly one Withdraw operation is appended to the log. -/
theorem C3_withdraw_cases (b : Bank) (hInv : Inv b) (A : String) (m : Money) :
    (lookupA b.accounts A = none →
      b.withdraw A m = (.error (.accountNotFound A), b)) ∧
    (∀ bal, lookupA b.accounts A = some bal →
      (m ≤ 0 → (b.withdraw A m).1 = .error (.amountNegative A m)) ∧
      (¬ m ≤ 0 → bal < m →
        (b.withdraw A m).1 = .error (.insufficientFunds A m bal) ∧
        (b.withdraw A m).2.get_balance A = .ok bal) ∧
      (¬ m ≤ 0 → ¬ bal < m →
        (b.withdraw A m).1 = .ok b.nextId ∧
        (b.withdraw A m).2.get_balance A = .ok (bal - m) ∧
        (b.withdraw A m).2.get_history =
          b.get_history ++ [⟨b.nextId, A, m, .withdraw⟩])) := by
  constructor
  · intro hnone
    exact withdraw_not_found b A m ((containsA_eq_false_iff _ _).2 hnone)
  · intro bal hl
    have hc : containsA b.accounts A = true := by simp [containsA, hl]
    refine ⟨?_, ?_, ?_⟩
    · intro hm
      rw [withdraw_neg b A m bal hl hm]
    · intro hm hb
      have e2 : (b.withdraw A m).2 = { b with nextId := b.nextId + 1 } := by
        rw [withdraw_insufficient b A m bal hl hm hb]
      constructor
      · rw [withdraw_insufficient b A m bal hl hm hb]
      · rw [e2]
        show Bank.get_balance { b with nextId := b.nextId + 1 } A = _
        simp [Bank.get_balance, hc, hl]
    · intro hm hb
      have e2 : (b.withdraw A m).2 =
          ⟨updateA b.accounts A (bal - m),
           pushHistoryId b.accounts_history A b.nextId,
           insertSorted b.history b.nextId ⟨b.nextId, A, m, .withdraw⟩,
           b.nextId + 1⟩ := by
        rw [withdraw_success b A m bal hl hm hb]
      refine ⟨?_, ?_, ?_⟩
      · rw [withdraw_success b A m bal hl hm hb]
      · rw [e2]
        show Bank.get_balance _ A = _
        simp [Bank.get_balance, containsA_updateA, lookupA_updateA]
      · rw [e2, insertSorted_eq_append _ _ _ hInv.hist_lt]
        simp [Bank.get_history]

theorem C3_withdraw_cases_witness :
    ((runCmds [.create "A", .deposit "A" 5]).withdraw "A" 9).1 =
      .error (.insufficientFunds "A" 9 5) ∧
    ((runCmds [.create "A", .deposit "A" 5]).withdraw "A" 9).2.get_balance "A" = .ok 5 := by
  have h := (C3_withdraw_cases (runCmds [.create "A", .deposit "A" 5])
    (Inv_runCmds [.create "A", .deposit "A" 5]) "A" 9).2 5 (by decide)
  exact h.2.1 (by decide) (by decide)

/-- Claim C4: the sum of all balances always equals net deposits minus
net withdrawals over the accepted log, and every successful transfer
leaves both the total and the sum of the two involved accounts'
balances unchanged. -/
theorem C4_sum_conservation (cs : List Cmd) (s r : String) (m : Money) :
    sum_balances (runCmds cs).accounts = net_flow (runCmds cs).history ∧
    (∀ id, ((runCmds cs).transfer s r m).1 = .ok id →
      sum_balances ((runCmds cs).transfer s r m).2.accounts =
        sum_balances (runCmds cs).accounts ∧
      (lookupA ((runCmds cs).transfer s r m).2.accounts s).getD 0 +
          (lookupA ((runCmds cs).transfer s r m).2.accounts r).getD 0 =
        (lookupA (runCmds cs).accounts s).getD 0 +
          (lookupA (runCmds cs).accounts r).getD 0) := by
  refine ⟨(Inv_runCmds cs).conserve, ?_⟩
  intro id h
  obtain ⟨bs, br, hs, hr, hsr, hm, hb⟩ := transfer_ok_inv (runCmds cs) s r m id h
  have hrs : ¬ r = s := fun e2 => hsr e2.symm
  have e2 : ((runCmds cs).transfer s r m).2 =
      ⟨updateA (updateA (runCmds cs).accounts s (bs - m)) r (br + m),
       pushHistoryId (pushHistoryId (runCmds cs).accounts_history s (runCmds cs).nextId) r
         (runCmds cs).nextId,
       insertSorted (runCmds cs).history (runCmds cs).nextId
         ⟨(runCmds cs).nextId, s, m, .transfer r⟩,
       (runCmds cs).nextId + 1⟩ := by
    rw [transfer_success (runCmds cs) s r m bs br hs hr hsr hm hb]
  rw [e2]
  have hlr : lookupA (updateA (runCmds cs).accounts s (bs - m)) r = some br := by
    rw [lookupA_updateA, if_neg hsr, hr]
  constructor
  · show sum_balances (updateA (updateA (runCmds cs).accounts s (bs - m)) r (br + m)) = _
    rw [sum_balances_updateA, hlr, sum_balances_updateA, hs]
    simp only [Option.getD_some]
    ring
  · show (lookupA (updateA (updateA (runCmds cs).accounts s (bs - m)) r (br + m)) s).getD 0 +
      (lookupA (updateA (updateA (runCmds cs).accounts s (bs - m)) r (br + m)) r).getD 0 = _
    rw [lookupA_updateA, if_neg hrs, lookupA_updateA, if_pos rfl,
      lookupA_updateA, if_pos rfl]
    simp only [Option.getD_some, hs, hr]
    ring

theorem C4_sum_conservation_witness :
    sum_balances ((runCmds [.create "A", .create "B", .deposit "A" 5]).transfer
      "A" "B" 3).2.accounts =
      sum_balances (runCmds [.create "A", .create "B", .deposit "A" 5]).accounts ∧
    (lookupA ((runCmds [.create "A", .create "B", .deposit "A" 5]).transfer
        "A" "B" 3).2.accounts "A").getD 0 +
      (lookupA ((runCmds [.create "A", .create "B", .deposit "A" 5]).transfer
        "A" "B" 3).2.accounts "B").getD 0 =
      (lookupA (runCmds [.create "A", .create "B", .deposit "A" 5]).accounts "A").getD 0 +
        (lookupA (runCmds [.create "A", .create "B", .deposit "A" 5]).accounts "B").getD 0 :=
  (C4_sum_conservation [.create "A", .create "B", .deposit "A" 5] "A" "B" 3).2 3 (by decide)

/-- Claim C5, as stated, is false at an absent account: the existence
checks run before the same-account check, so `transfer("A","A",1)` on an
empty ledger yields AccountNotFound, not SomeAccountTransfer. -/
theorem C5_counterexample :
    (Bank.new.transfer "A" "A" 1).1 = .error (.accountNotFound "A") ∧
    (Bank.new.transfer "A" "A" 1).1 ≠ .error (.someAccountTransfer "A") := by
  decide

/-- Claim C5 (amended): for every account A present in the ledger and
every amount x, `transfer(A, A, x)` returns SomeAccountTransfer
regardless of balance and amount; the from == to check runs after the
account-existence checks but before the amount and balance checks. -/
theorem C5_same_account (b : Bank) (A : String) (m : Money)
    (h : containsA b.accounts A = true) :
    (b.transfer A A m).1 = .error (.someAccountTransfer A) := by
  rw [transfer_same_account b A m h]

theorem C5_same_account_witness :
    ((runCmds [.create "A"]).transfer "A" "A" (-3)).1 =
      .error (.someAccountTransfer "A") ∧
    ((runCmds [.create "A"]).transfer "A" "A" 1000).1 =
      .error (.someAccountTransfer "A") :=
  ⟨C5_same_account (runCmds [.create "A"]) "A" (-3) (by decide),
   C5_same_account (runCmds [.create "A"]) "A" 1000 (by decide)⟩

/-- Claim C8: whenever `transfer` returns any error, the ledger state —
balances, operation log, per-account histories, and generator — is
completely unchanged. -/
theorem C8_transfer_error_unchanged (b : Bank) (s r : String) (m : Money) (e : BankError)
    (h : (b.transfer s r m).1 = .error e) : (b.transfer s r m).2 = b := by
  cases hcs : containsA b.accounts s with
  | false => rw [transfer_sender_not_found b s r m hcs]
  | true =>
    cases hcr : containsA b.accounts r with
    | false => rw [transfer_receiver_not_found b s r m hcs hcr]
    | true =>
      by_cases hsr : s = r
      · subst hsr
        rw [transfer_same_account b s m hcs]
      · obtain ⟨bs, hs⟩ := (containsA_eq_true_iff _ _).1 hcs
        obtain ⟨br, hr⟩ := (containsA_eq_true_iff _ _).1 hcr
        by_cases hm : m ≤ 0
        · rw [transfer_neg b s r m bs br hs hr hsr hm]
        · by_cases hb : bs < m
          · rw [transfer_insufficient b s r m bs br hs hr hsr hm hb]
          · rw [transfer_success b s r m bs br hs hr hsr hm hb] at h
            simp at h

theorem C8_transfer_error_unchanged_witness :
    ((runCmds [.create "A", .create "B"]).transfer "A" "B" 5).2 =
      runCmds [.create "A", .create "B"] :=
  C8_transfer_error_unchanged (runCmds [.create "A", .create "B"]) "A" "B" 5
    (.insufficientFunds "A" 5 0) (by decide)

/-- Claim C9: for an absent account, deposit, withdraw and transfer all
return AccountNotFound even when the amount is non-positive — the
existence check runs before the amount check. -/
theorem C9_not_found_precedence (b : Bank) (code other : String) (m : Money)
    (h : containsA b.accounts code = false) :
    (b.deposit code m).1 = .error (.accountNotFound code) ∧
    (b.withdraw code m).1 = .error (.accountNotFound code) ∧
    (b.transfer code other m).1 = .error (.accountNotFound code) ∧
    (containsA b.accounts other = true →
      (b.transfer other code m).1 = .error (.accountNotFound code)) := by
  refine ⟨?_, ?_, ?_, ?_⟩
  · rw [deposit_not_found b code m h]
  · rw [withdraw_not_found b code m h]
  · rw [transfer_sender_not_found b code other m h]
  · intro ho
    rw [transfer_receiver_not_found b other code m ho h]

theorem C9_not_found_precedence_witness :
    ((runCmds [.create "B"]).deposit "A" (-5)).1 = .error (.accountNotFound "A") ∧
    ((runCmds [.create "B"]).withdraw "A" (-5)).1 = .error (.accountNotFound "A") ∧
    ((runCmds [.create "B"]).transfer "A" "B" (-5)).1 = .error (.accountNotFound "A") ∧
    ((runCmds [.create "B"]).transfer "B" "A" (-5)).1 = .error (.accountNotFound "A") := by
  have h := C9_not_found_precedence (runCmds [.create "B"]) "A" "B" (-5) (by decide)
  exact ⟨h.1, h.2.1, h.2.2.1, h.2.2.2 (by decide)⟩

/-- No public operation ever removes an account. -/
theorem contains_after_applyCmd (b : Bank) (c : Cmd) (a : String)
    (h : containsA b.accounts a = true) :
    containsA (applyCmd b c).accounts a = true := by
  cases c with
  | create x =>
    cases hc : containsA b.accounts x with
    | true =>
      show containsA (b.create_account x).2.accounts a = true
      rw [create_account_exists b x hc]
      exact h
    | false =>
      show containsA (b.create_account x).2.accounts a = true
      rw [create_account_success b x hc]
      show containsA (updateA b.accounts x 0) a = true
      rw [containsA_updateA]
      by_cases hx : x = a
      · rw [if_pos hx]
      · rw [if_neg hx]; exact h
  | deposit x m =>
    cases hc : containsA b.accounts x with
    | false =>
      show containsA (b.deposit x m).2.accounts a = true
      rw [deposit_not_found b x m hc]
      exact h
    | true =>
      obtain ⟨bal, hl⟩ := (containsA_eq_true_iff _ _).1 hc
      by_cases hm : m ≤ 0
      · show containsA (b.deposit x m).2.accounts a = true
        rw [deposit_neg b x m bal hl hm]
        exact h
      · show containsA (b.deposit x m).2.accounts a = true
        rw [deposit_success b x m bal hl hm]
        show containsA (updateA b.accounts x (bal + m)) a = true
        rw [containsA_updateA]
        by_cases hx : x = a
        · rw [if_pos hx]
        · rw [if_neg hx]; exact h
  | withdraw x m =>
    cases hc : containsA b.accounts x with
    | false =>
      show containsA (b.withdraw x m).2.accounts a = true
      rw [withdraw_not_found b x m hc]
      exact h
    | true =>
      obtain ⟨bal, hl⟩ := (containsA_eq_true_iff _ _).1 hc
      by_cases hm : m ≤ 0
      · show containsA (b.withdraw x m).2.accounts a = true
        rw [withdraw_neg b x m bal hl hm]
        exact h
      · by_cases hb : bal < m
        · show containsA (b.withdraw x m).2.accounts a = true
          rw [withdraw_insufficient b x m bal hl hm hb]
          exact h
        · show containsA (b.withdraw x m).2.accounts a = true
          rw [withdraw_success b x m bal hl hm hb]
          show containsA (updateA b.accounts x (bal - m)) a = true
          rw [containsA_updateA]
          by_cases hx : x = a
          · rw [if_pos hx]
          · rw [if_neg hx]; exact h
  | transfer s r m =>
    cases hres : (runCmd b (Cmd.transfer s r m)).1 with
    | error e =>
      rw [(runCmd_error_state b (Cmd.transfer s r m) e hres).1]
      exact h
    | ok id =>
      obtain ⟨bs, br, hs, hr, hsr, hm, hb⟩ := transfer_ok_inv b s r m id hres
      show containsA (b.transfer s r m).2.accounts a = true
      rw [transfer_success b s r m bs br hs hr hsr hm hb]
      show containsA (updateA (updateA b.accounts s (bs - m)) r (br + m)) a = true
      rw [containsA_updateA, containsA_updateA]
      by_cases hra : r = a
      · rw [if_pos hra]
      · rw [if_neg hra]
        by_cases hsa : s = a
        · rw [if_pos hsa]
        · rw [if_neg hsa]; exact h

/-- Claim C10: accounts are never removed by any operation, a successful
create leaves the account present, and for every reachable ledger the
per-account history of an existing account starts with that account's
own CreateAccount operation of amount zero. -/
theorem C10_account_permanence (b : Bank) (c : Cmd) (a : String) (id : TransactionId)
    (cs : List Cmd) :
    (containsA b.accounts a = true → containsA (applyCmd b c).accounts a = true) ∧
    ((b.create_account a).1 = .ok id →
      containsA (b.create_account a).2.accounts a = true) ∧
    (containsA (runCmds cs).accounts a = true →
      ((runCmds cs).get_account_history a).map (fun l => l.head?.map eraseOp) =
        .ok (some ⟨a, 0, .createAccount⟩)) := by
  refine ⟨contains_after_applyCmd b c a, ?_, ?_⟩
  · intro h
    cases hc : containsA b.accounts a with
    | true =>
      have h2 : (b.create_account a).1 = .ok id := h
      rw [create_account_exists b a hc] at h2
      simp at h2
    | false =>
      rw [create_account_success b a hc]
      show containsA (updateA b.accounts a 0) a = true
      rw [containsA_updateA, if_pos rfl]
  · intro hc
    have hInv := Inv_runCmds cs
    obtain ⟨i, rest, hrest⟩ := hInv.first_create a hc
    rw [Bank.get_account_history, if_neg (by simp [hc]), hrest]
    rfl

theorem C10_account_permanence_witness :
    containsA (applyCmd (runCmds [.create "A", .deposit "A" 2])
      (.deposit "A" 3)).accounts "A" = true ∧
    ((runCmds [.create "A", .deposit "A" 2]).get_account_history "A").map
        (fun l => l.head?.map eraseOp) =
      .ok (some ⟨"A", 0, .createAccount⟩) := by
  have h := C10_account_permanence (runCmds [.create "A", .deposit "A" 2])
    (.deposit "A" 3) "A" 0 [.create "A", .deposit "A" 2]
  exact ⟨h.1 (by decide), h.2.2 (by decide)⟩

/-- Claim C6: every accepted operation is appended at the end of the
global log (log order = acceptance order, ids increasing with
acceptance), a rejected command leaves the log unchanged, and
`get_account_history` is the stable filter of the global log to the
operations referencing the account as source or transfer target. -/
theorem C6_history_order (cs : List Cmd) (c : Cmd) (a : String) :
    (∀ e, (runCmd (runCmds cs) c).1 = .error e →
      (applyCmd (runCmds cs) c).get_history = (runCmds cs).get_history) ∧
    (∀ id, (runCmd (runCmds cs) c).1 = .ok id →
      (applyCmd (runCmds cs) c).get_history =
        (runCmds cs).get_history ++ [mkOp (runCmds cs) c] ∧
      (mkOp (runCmds cs) c).id = id) ∧
    (containsA (runCmds cs).accounts a = true →
      (runCmds cs).get_account_history a =
        .ok ((runCmds cs).get_history.filter (references_account a))) := by
  refine ⟨?_, ?_, ?_⟩
  · intro e h
    have h3 := (runCmd_error_state (runCmds cs) c e h).2.2
    simp [Bank.get_history, h3]
  · intro id h
    have h2 := runCmd_ok_state (runCmds cs) c id (Inv_runCmds cs) h
    refine ⟨h2.2, ?_⟩
    rw [h2.1]
    cases c <;> rfl
  · intro hc
    have hInv := Inv_runCmds cs
    rw [Bank.get_account_history, if_neg (by simp [hc]), hInv.filter_eq a hc]

theorem C6_history_order_witness :
    (applyCmd (runCmds [.create "A"]) (.deposit "A" 4)).get_history =
      (runCmds [.create "A"]).get_history ++
        [mkOp (runCmds [.create "A"]) (.deposit "A" 4)] ∧
    (runCmds [.create "A"]).get_account_history "A" =
      .ok ((runCmds [.create "A"]).get_history.filter (references_account "A")) := by
  have h := C6_history_order [.create "A"] (.deposit "A" 4) "A"
  exact ⟨(h.2.1 1 (by decide)).1, h.2.2 (by decide)⟩

/-- One command acts the same, up to operation ids, on two banks with
the same account map: the results agree on accounts, on the id-erased
log, and on acceptance. -/
theorem SimR_step (b1 b2 : Bank) (c : Cmd) (h1 : Inv b1) (h2 : Inv b2)
    (hacc : b1.accounts = b2.accounts)
    (hhist : b1.get_history.map eraseOp = b2.get_history.map eraseOp) :
    (applyCmd b1 c).accounts = (applyCmd b2 c).accounts ∧
    (applyCmd b1 c).get_history.map eraseOp =
      (applyCmd b2 c).get_history.map eraseOp ∧
    (∀ id, (runCmd b1 c).1 = .ok id → (runCmd b2 c).1 = .ok b2.nextId) := by
  have hh : (b1.history.map (fun p => p.2)).map eraseOp =
      (b2.history.map (fun p => p.2)).map eraseOp := hhist
  cases c with
  | create a =>
    cases hc : containsA b1.accounts a with
    | true =>
      have hc2 : containsA b2.accounts a = true := by rw [← hacc]; exact hc
      have e1 := create_account_exists b1 a hc
      have e2 := create_account_exists b2 a hc2
      refine ⟨?_, ?_, ?_⟩
      · show (b1.create_account a).2.accounts = (b2.create_account a).2.accounts
        rw [e1, e2]; exact hacc
      · show ((b1.create_account a).2.get_history).map eraseOp =
          ((b2.create_account a).2.get_history).map eraseOp
        rw [e1, e2]; exact hhist
      · intro id h
        have h' : (b1.create_account a).1 = .ok id := h
        rw [e1] at h'; simp at h'
    | false =>
      have hc2 : containsA b2.accounts a = false := by rw [← hacc]; exact hc
      have e1 := create_account_success b1 a hc
      have e2 := create_account_success b2 a hc2
      refine ⟨?_, ?_, ?_⟩
      · show (b1.create_account a).2.accounts = (b2.create_account a).2.accounts
        rw [e1, e2]
        show updateA b1.accounts a 0 = updateA b2.accounts a 0
        rw [hacc]
      · show ((b1.create_account a).2.get_history).map eraseOp =
          ((b2.create_account a).2.get_history).map eraseOp
        rw [e1, e2, insertSorted_eq_append _ _ _ h1.hist_lt,
          insertSorted_eq_append _ _ _ h2.hist_lt]
        simp only [Bank.get_history, List.map_append, List.map_cons, List.map_nil]
        rw [hh]
        rfl
      · intro id h
        show (b2.create_account a).1 = .ok b2.nextId
        rw [e2]
  | deposit a m =>
    cases hc : containsA b1.accounts a with
    | false =>
      have hc2 : containsA b2.accounts a = false := by rw [← hacc]; exact hc
      have e1 := deposit_not_found b1 a m hc
      have e2 := deposit_not_found b2 a m hc2
      refine ⟨?_, ?_, ?_⟩
      · show (b1.deposit a m).2.accounts = (b2.deposit a m).2.accounts
        rw [e1, e2]; exact hacc
      · show ((b1.deposit a m).2.get_history).map eraseOp =
          ((b2.deposit a m).2.get_history).map eraseOp
        rw [e1, e2]; exact hhist
      · intro id h
        have h' : (b1.deposit a m).1 = .ok id := h
        rw [e1] at h'; simp at h'
    | true =>
      obtain ⟨bal, hl⟩ := (containsA_eq_true_iff _ _).1 hc
      have hl2 : lookupA b2.accounts a = some bal := by rw [← hacc]; exact hl
      by_cases hm : m ≤ 0
      · have e1 := deposit_neg b1 a m bal hl hm
        have e2 := deposit_neg b2 a m bal hl2 hm
        refine ⟨?_, ?_, ?_⟩
        · show (b1.deposit a m).2.accounts = (b2.deposit a m).2.accounts
          rw [e1, e2]; exact hacc
        · show ((b1.deposit a m).2.get_history).map eraseOp =
          ((b2.deposit a m).2.get_history).map eraseOp
          rw [e1, e2]; exact hhist
        · intro id h
          have h' : (b1.deposit a m).1 = .ok id := h
          rw [e1] at h'; simp at h'
      · have e1 := deposit_success b1 a m bal hl hm
        have e2 := deposit_success b2 a m bal hl2 hm
        refine ⟨?_, ?_, ?_⟩
        · show (b1.deposit a m).2.accounts = (b2.deposit a m).2.accounts
          rw [e1, e2]
          show updateA b1.accounts a (bal + m) = updateA b2.accounts a (bal + m)
          rw [hacc]
        · show ((b1.deposit a m).2.get_history).map eraseOp =
          ((b2.deposit a m).2.get_history).map eraseOp
          rw [e1, e2, insertSorted_eq_append _ _ _ h1.hist_lt,
            insertSorted_eq_append _ _ _ h2.hist_lt]
          simp only [Bank.get_history, List.map_append, List.map_cons, List.map_nil]
          rw [hh]
          rfl
        · intro id h
          show (b2.deposit a m).1 = .ok b2.nextId
          rw [e2]
  | withdraw a m =>
    cases hc : containsA b1.accounts a with
    | false =>
      have hc2 : containsA b2.accounts a = false := by rw [← hacc]; exact hc
      have e1 := withdraw_not_found b1 a m hc
      have e2 := withdraw_not_found b2 a m hc2
      refine ⟨?_, ?_, ?_⟩
      · show (b1.withdraw a m).2.accounts = (b2.withdraw a m).2.accounts
        rw [e1, e2]; exact hacc
      · show ((b1.withdraw a m).2.get_history).map eraseOp =
          ((b2.withdraw a m).2.get_history).map eraseOp
        rw [e1, e2]; exact hhist
      · intro id h
        have h' : (b1.withdraw a m).1 = .ok id := h
        rw [e1] at h'; simp at h'
    | true =>
      obtain ⟨bal, hl⟩ := (containsA_eq_true_iff _ _).1 hc
      have hl2 : lookupA b2.accounts a = some bal := by rw [← hacc]; exact hl
      by_cases hm : m ≤ 0
      · have e1 := withdraw_neg b1 a m bal hl hm
        have e2 := withdraw_neg b2 a m bal hl2 hm
        refine ⟨?_, ?_, ?_⟩
        · show (b1.withdraw a m).2.accounts = (b2.withdraw a m).2.accounts
          rw [e1, e2]; exact hacc
        · show ((b1.withdraw a m).2.get_history).map eraseOp =
          ((b2.withdraw a m).2.get_history).map eraseOp
          rw [e1, e2]; exact hhist
        · intro id h
          have h' : (b1.withdraw a m).1 = .ok id := h
          rw [e1] at h'; simp at h'
      · by_cases hb : bal < m
        · have e1 := withdraw_insufficient b1 a m bal hl hm hb
          have e2 := withdraw_insufficient b2 a m bal hl2 hm hb
          refine ⟨?_, ?_, ?_⟩
          · show (b1.withdraw a m).2.accounts = (b2.withdraw a m).2.accounts
            rw [e1, e2]; exact hacc
          · show ((b1.withdraw a m).2.get_history).map eraseOp =
          ((b2.withdraw a m).2.get_history).map eraseOp
            rw [e1, e2]; exact hhist
          · intro id h
            have h' : (b1.withdraw a m).1 = .ok id := h
            rw [e1] at h'; simp at h'
        · have e1 := withdraw_success b1 a m bal hl hm hb
          have e2 := withdraw_success b2 a m bal hl2 hm hb
          refine ⟨?_, ?_, ?_⟩
          · show (b1.withdraw a m).2.accounts = (b2.withdraw a m).2.accounts
            rw [e1, e2]
            show updateA b1.accounts a (bal - m) = updateA b2.accounts a (bal - m)
            rw [hacc]
          · show ((b1.withdraw a m).2.get_history).map eraseOp =
          ((b2.withdraw a m).2.get_history).map eraseOp
            rw [e1, e2, insertSorted_eq_append _ _ _ h1.hist_lt,
              insertSorted_eq_append _ _ _ h2.hist_lt]
            simp only [Bank.get_history, List.map_append, List.map_cons, List.map_nil]
            rw [hh]
            rfl
          · intro id h
            show (b2.withdraw a m).1 = .ok b2.nextId
            rw [e2]
  | transfer s r m =>
    cases hcs : containsA b1.accounts s with
    | false =>
      have hcs2 : containsA b2.accounts s = false := by rw [← hacc]; exact hcs
      have e1 := transfer_sender_not_found b1 s r m hcs
      have e2 := transfer_sender_not_found b2 s r m hcs2
      refine ⟨?_, ?_, ?_⟩
      · show (b1.transfer s r m).2.accounts = (b2.transfer s r m).2.accounts
        rw [e1, e2]; exact hacc
      · show ((b1.transfer s r m).2.get_history).map eraseOp =
          ((b2.transfer s r m).2.get_history).map eraseOp
        rw [e1, e2]; exact hhist
      · intro id h
        have h' : (b1.transfer s r m).1 = .ok id := h
        rw [e1] at h'; simp at h'
    | true =>
      have hcs2 : containsA b2.accounts s = true := by rw [← hacc]; exact hcs
      cases hcr : containsA b1.accounts r with
      | false =>
        have hcr2 : containsA b2.accounts r = false := by rw [← hacc]; exact hcr
        have e1 := transfer_receiver_not_found b1 s r m hcs hcr
        have e2 := transfer_receiver_not_found b2 s r m hcs2 hcr2
        refine ⟨?_, ?_, ?_⟩
        · show (b1.transfer s r m).2.accounts = (b2.transfer s r m).2.accounts
          rw [e1, e2]; exact hacc
        · show ((b1.transfer s r m).2.get_history).map eraseOp =
          ((b2.transfer s r m).2.get_history).map eraseOp
          rw [e1, e2]; exact hhist
        · intro id h
          have h' : (b1.transfer s r m).1 = .ok id := h
          rw [e1] at h'; simp at h'
      | true =>
        have hcr2 : containsA b2.accounts r = true := by rw [← hacc]; exact hcr
        by_cases hsr : s = r
        · subst hsr
          have e1 := transfer_same_account b1 s m hcs
          have e2 := transfer_same_account b2 s m hcs2
          refine ⟨?_, ?_, ?_⟩
          · show (b1.transfer s s m).2.accounts = (b2.transfer s s m).2.accounts
            rw [e1, e2]; exact hacc
          · show ((b1.transfer s s m).2.get_history).map eraseOp =
          ((b2.transfer s s m).2.get_history).map eraseOp
            rw [e1, e2]; exact hhist
          · intro id h
            have h' : (b1.transfer s s m).1 = .ok id := h
            rw [e1] at h'; simp at h'
        · obtain ⟨bs, hs⟩ := (containsA_eq_true_iff _ _).1 hcs
          obtain ⟨br, hr⟩ := (containsA_eq_true_iff _ _).1 hcr
          have hs2 : lookupA b2.accounts s = some bs := by rw [← hacc]; exact hs
          have hr2 : lookupA b2.accounts r = some br := by rw [← hacc]; exact hr
          by_cases hm : m ≤ 0
          · have e1 := transfer_neg b1 s r m bs br hs hr hsr hm
            have e2 := transfer_neg b2 s r m bs br hs2 hr2 hsr hm
            refine ⟨?_, ?_, ?_⟩
            · show (b1.transfer s r m).2.accounts = (b2.transfer s r m).2.accounts
              rw [e1, e2]; exact hacc
            · show ((b1.transfer s r m).2.get_history).map eraseOp =
          ((b2.transfer s r m).2.get_history).map eraseOp
              rw [e1, e2]; exact hhist
            · intro id h
              have h' : (b1.transfer s r m).1 = .ok id := h
              rw [e1] at h'; simp at h'
          · by_cases hb : bs < m
            · have e1 := transfer_insufficient b1 s r m bs br hs hr hsr hm hb
              have e2 := transfer_insufficient b2 s r m bs br hs2 hr2 hsr hm hb
              refine ⟨?_, ?_, ?_⟩
              · show (b1.transfer s r m).2.accounts = (b2.transfer s r m).2.accounts
                rw [e1, e2]; exact hacc
              · show ((b1.transfer s r m).2.get_history).map eraseOp =
          ((b2.transfer s r m).2.get_history).map eraseOp
                rw [e1, e2]; exact hhist
              · intro id h
                have h' : (b1.transfer s r m).1 = .ok id := h
                rw [e1] at h'; simp at h'
            · have e1 := transfer_success b1 s r m bs br hs hr hsr hm hb
              have e2 := transfer_success b2 s r m bs br hs2 hr2 hsr hm hb
              refine ⟨?_, ?_, ?_⟩
              · show (b1.transfer s r m).2.accounts = (b2.transfer s r m).2.accounts
                rw [e1, e2]
                show updateA (updateA b1.accounts s (bs - m)) r (br + m) =
                  updateA (updateA b2.accounts s (bs - m)) r (br + m)
                rw [hacc]
              · show ((b1.transfer s r m).2.get_history).map eraseOp =
          ((b2.transfer s r m).2.get_history).map eraseOp
                rw [e1, e2, insertSorted_eq_append _ _ _ h1.hist_lt,
                  insertSorted_eq_append _ _ _ h2.hist_lt]
                simp only [Bank.get_history, List.map_append, List.map_cons, List.map_nil]
                rw [hh]
                rfl
              · intro id h
                show (b2.transfer s r m).1 = .ok b2.nextId
                rw [e2]

theorem replayStep_eq (b : Bank) (op : Operation) :
    replayStep b op =
      match (runCmd b (toCmd op)).1 with
      | .ok _ => some (applyCmd b (toCmd op))
      | .error _ => none := by
  cases hty : op.operation_type with
  | createAccount =>
    cases hp : b.create_account op.source_account with
    | mk res b' => cases res <;> simp [replayStep, toCmd, runCmd, applyCmd, hty, hp]
  | deposit =>
    cases hp : b.deposit op.source_account op.amount with
    | mk res b' => cases res <;> simp [replayStep, toCmd, runCmd, applyCmd, hty, hp]
  | withdraw =>
    cases hp : b.withdraw op.source_account op.amount with
    | mk res b' => cases res <;> simp [replayStep, toCmd, runCmd, applyCmd, hty, hp]
  | transfer target_account =>
    cases hp : b.transfer op.source_account target_account op.amount with
    | mk res b' => cases res <;> simp [replayStep, toCmd, runCmd, applyCmd, hty, hp]

theorem replayLoop_append (l1 l2 : List Operation) (b : Bank) :
    replayLoop (l1 ++ l2) b =
      match replayLoop l1 b with
      | some b' => replayLoop l2 b'
      | none => none := by
  induction l1 generalizing b with
  | nil => simp [replayLoop]
  | cons op rest ih =>
    simp only [List.cons_append, replayLoop]
    cases replayStep b op <;> simp [ih]

/-- Replaying the log of a reachable bank succeeds and reproduces the
account map exactly and the log up to operation ids. -/
theorem replay_sim (cs : List Cmd) :
    ∃ rb, Bank.replay_history (runCmds cs).get_history = some rb ∧ Inv rb ∧
      rb.accounts = (runCmds cs).accounts ∧
      rb.get_history.map eraseOp = (runCmds cs).get_history.map eraseOp := by
  induction cs using List.reverseRecOn with
  | nil => exact ⟨Bank.new, rfl, Inv_new, rfl, rfl⟩
  | append_singleton cs c ih =>
    obtain ⟨rb, hreplay, hrbInv, hacc, hhist⟩ := ih
    have hb1 := Inv_runCmds cs
    have hrun : runCmds (cs ++ [c]) = applyCmd (runCmds cs) c := by
      simp [runCmds, List.foldl_append]
    cases hres : (runCmd (runCmds cs) c).1 with
    | error e =>
      have hstate := runCmd_error_state (runCmds cs) c e hres
      have hgh : (applyCmd (runCmds cs) c).get_history = (runCmds cs).get_history := by
        simp [Bank.get_history, hstate.2.2]
      refine ⟨rb, ?_, hrbInv, ?_, ?_⟩
      · rw [hrun, hgh]; exact hreplay
      · rw [hrun, hstate.1]; exact hacc
      · rw [hrun, hgh]; exact hhist
    | ok id =>
      have hok := runCmd_ok_state (runCmds cs) c id hb1 hres
      have hstep := SimR_step (runCmds cs) rb c hb1 hrbInv hacc.symm hhist.symm
      have hrbok : (runCmd rb c).1 = .ok rb.nextId := hstep.2.2 id hres
      refine ⟨applyCmd rb c, ?_, Inv_applyCmd rb c hrbInv, ?_, ?_⟩
      · rw [hrun]
        rw [Bank.replay_history] at hreplay ⊢
        rw [hok.2, replayLoop_append, hreplay]
        show replayLoop [mkOp (runCmds cs) c] rb = some (applyCmd rb c)
        simp only [replayLoop, replayStep_eq, toCmd_mkOp, hrbok]
      · rw [hrun]; exact hstep.1.symm
      · rw [hrun]; exact hstep.2.1.symm

/-- Claim C1 (amended): replaying the full ordered log of any reachable
ledger into a fresh ledger succeeds and reproduces an identical balance
map and, for every account, an identical per-account history up to
operation ids (same sequence of sources, amounts and operation types);
the ids themselves are regenerated by the fresh ledger's id generator,
not carried over from the log. -/
theorem C1_replay_reproduces (cs : List Cmd) :
    ∃ rb, Bank.replay_history (runCmds cs).get_history = some rb ∧
      rb.accounts = (runCmds cs).accounts ∧
      (∀ a, rb.get_balance a = (runCmds cs).get_balance a) ∧
      (∀ a, (rb.get_account_history a).map (List.map eraseOp) =
        ((runCmds cs).get_account_history a).map (List.map eraseOp)) := by
  obtain ⟨rb, hr, hInvRb, hacc, hhist⟩ := replay_sim cs
  have hInvB := Inv_runCmds cs
  refine ⟨rb, hr, hacc, ?_, ?_⟩
  · intro a
    unfold Bank.get_balance
    rw [hacc]
  · intro a
    cases hc : containsA (runCmds cs).accounts a with
    | false =>
      have hc2 : containsA rb.accounts a = false := by rw [hacc]; exact hc
      simp [Bank.get_account_history, hc, hc2]
    | true =>
      have hc2 : containsA rb.accounts a = true := by rw [hacc]; exact hc
      rw [Bank.get_account_history, Bank.get_account_history,
        if_neg (by simp [hc, hc2]), if_neg (by simp [hc, hc2])]
      show Except.ok ((accountOps rb a).map eraseOp) =
        Except.ok ((accountOps (runCmds cs) a).map eraseOp)
      rw [hInvRb.filter_eq a hc2, hInvB.filter_eq a hc,
        map_erase_filter, map_erase_filter, hhist]

/-- Claim C1, as stated, is false: `replay_history` re-dispatches every
logged operation through the public interface, which regenerates ids
instead of carrying them from the log.  A failed withdrawal consumes a
generator id, so the original log carries ids 0 and 2 while the replayed
ledger assigns 0 and 1, and the per-account histories differ. -/
theorem C1_counterexample :
    Bank.replay_history
        (runCmds [.create "A", .withdraw "A" 1, .deposit "A" 1]).get_history =
      some ((Bank.replay_history
        (runCmds [.create "A", .withdraw "A" 1, .deposit "A" 1]).get_history).getD
          Bank.new) ∧
    ((Bank.replay_history
        (runCmds [.create "A", .withdraw "A" 1, .deposit "A" 1]).get_history).getD
          Bank.new).get_account_history "A" ≠
      (runCmds [.create "A", .withdraw "A" 1, .deposit "A" 1]).get_account_history "A" ∧
    ((Bank.replay_history
        (runCmds [.create "A", .withdraw "A" 1, .deposit "A" 1]).get_history).getD
          Bank.new).get_balance "A" =
      (runCmds [.create "A", .withdraw "A" 1, .deposit "A" 1]).get_balance "A" := by
  decide

/-! ### The TCP server of hw13-15 (`server/src/main.rs`), one connection

The processing thread (`create_processing_thread`) owns the bank and
receives `(RequestPayload, reply-channel)` pairs; the connection handler
(`handle_client_requests`) reads one request at a time, forwards it
through `processing`, blocks on `recv()` for the reply, and writes one
response.  We embed a single connection's request list; replies carry
the structured `BankError` where the source formats it to a string. -/

/-- `RequestPayload` from shared/src/models.rs (params inlined). -/
inductive RequestPayload where
  | ping
  | openAccount (account : String)
  | withdrawFunds (account : String) (amount : Money)
  | depositFunds (account : String) (amount : Money)
  | getBalance (account : String)
  | transferFunds (sender_account receiver_account : String) (amount : Money)
  | closeConnection
  | getHistory
  | getHistoryForAccount (account : String)
deriving DecidableEq

/-- `BankResponse` from bank.rs: what the processing thread sends back
on the reply channel. -/
inductive BankResponse where
  | transaction (result : Except BankError TransactionId)
  | history (result : Except BankError (List Operation))
  | balance (result : Except BankError Money)
deriving DecidableEq

/-- `ResponsePayload` from shared/src/models.rs. -/
inductive ResponsePayload where
  | handShakeEstablished
  | error (e : BankError)
  | accountCreated (id : TransactionId)
  | accountCreatedError (e : BankError)
  | depositSuccess (id : TransactionId)
  | depositError (e : BankError)
  | withdrawSuccess (id : TransactionId)
  | withdrawalError (e : BankError)
  | transferSuccess (id : TransactionId)
  | someAccountError (e : BankError)
  | balance (amount : Money)
  | history (operations : List Operation)
  | deserializeError
deriving DecidableEq

/-- The dispatch inside `create_processing_thread`: `none` means the
catch-all `_ => Ok(())` arm was taken and nothing was sent on the reply
channel.  `GetHistoryForAccount` falls into that arm — the thread never
answers it. -/
def processRequest (bank : Bank) (p : RequestPayload) : Option BankResponse × Bank :=
  match p with
  | .openAccount account =>
    let (trans_id, bank) := bank.create_account account
    (some (.transaction trans_id), bank)
  | .depositFunds account amount =>
    let (trans_id, bank) := bank.deposit account amount
    (some (.transaction trans_id), bank)
  | .withdrawFunds account amount =>
    let (trans_id, bank) := bank.withdraw account amount
    (some (.transaction trans_id), bank)
  | .transferFunds sender_account receiver_account amount =>
    let (trans_id, bank) := bank.transfer sender_account receiver_account amount
    (some (.transaction trans_id), bank)
  | .getBalance account => (some (.balance (bank.get_balance account)), bank)
  | .getHistory => (some (.history (.ok bank.get_history)), bank)
  | _ => (none, bank)

/-- The response mapping of the `process_*` functions in the handler;
`none` is their `Err(TypeMismatchError ...)` path, which aborts the
connection.  `withdraw` singles out InsufficientFunds and `transfer`
singles out SomeAccountTransfer, everything else becomes the generic
`Error`. -/
def responseFor (p : RequestPayload) (r : BankResponse) : Option ResponsePayload :=
  match p, r with
  | .openAccount _, .transaction (.ok id) => some (.accountCreated id)
  | .openAccount _, .transaction (.error e) => some (.accountCreatedError e)
  | .depositFunds _ _, .transaction (.ok id) => some (.depositSuccess id)
  | .depositFunds _ _, .transaction (.error e) => some (.depositError e)
  | .withdrawFunds _ _, .transaction (.ok id) => some (.withdrawSuccess id)
  | .withdrawFunds _ _, .transaction (.error e) =>
    match e with
    | .insufficientFunds a m bal => some (.withdrawalError (.insufficientFunds a m bal))
    | _ => some (.error e)
  | .transferFunds _ _ _, .transaction (.ok id) => some (.transferSuccess id)
  | .transferFunds _ _ _, .transaction (.error e) =>
    match e with
    | .someAccountTransfer a => some (.someAccountError (.someAccountTransfer a))
    | _ => some (.error e)
  | .getBalance _, .balance (.ok amount) => some (.balance amount)
  | .getBalance _, .balance (.error e) => some (.error e)
  | .getHistory, .history (.ok ops) => some (.history ops)
  | .getHistory, .history (.error e) => some (.error e)
  | .getHistoryForAccount _, .history (.ok ops) => some (.history ops)
  | .getHistoryForAccount _, .history (.error e) => some (.error e)
  | _, _ => none

/-- The loop of `handle_client_requests` over the requests of one
connection, returning the responses written to the socket in order.
`Ping` is answered inline by `process_ping`; `CloseConnection` shuts the
socket down and returns; any other request is submitted to the
processing thread and the handler blocks in `recv()` for the reply — if
the dispatch never sends one (the `_ => Ok(())` arm, reached for
`GetHistoryForAccount`), the handler blocks forever and no further
response is ever written. -/
def handleClientRequests (bank : Bank) : List RequestPayload → List ResponsePayload
  | [] => []
  | req :: rest =>
    match req with
    | .ping => .handShakeEstablished :: handleClientRequests bank rest
    | .closeConnection => []
    | _ =>
      match processRequest bank req with
      | (some br, bank') =>
        match responseFor req br with
        | some resp => resp :: handleClientRequests bank' rest
        | none => []
      | (none, _) => []

/-- Claim C7 evaluated at the failing input: a connection that sends the
single well-formed request `GetHistoryForAccount "A"` receives zero
responses — the processing thread's catch-all arm returns `Ok(())`
without replying, so the handler blocks forever in `recv()` — while the
claim promises exactly one response per request. -/
theorem C7_get_history_for_account_no_response :
    handleClientRequests Bank.new [RequestPayload.getHistoryForAccount "A"] = [] ∧
    [RequestPayload.getHistoryForAccount "A"].length = 1 ∧
    (handleClientRequests Bank.new [RequestPayload.getHistoryForAccount "A"]).length ≠
      [RequestPayload.getHistoryForAccount "A"].length := by
  decide

end BankSpec
